import Mathlib

/-!
Verification development for the farcaster-node swap daemon core.

The swap state machine is shallowly embedded from `src/swapd/swap_state.rs`;
the checkpoint codec and multipart chunking from `src/swapd/runtime.rs`.
The temporal-safety predicates and the syncer-state tables live in repository
files not present in this snapshot (`swapd/temporal_safety.rs`,
`swapd/syncer_client.rs`); they are modelled from the specification where so
marked.  External collaborators (the cryptographic wallet, the reveal
validator) are represented by an explicit record of oracle functions, and all
outbound bus traffic is collected into a list of effects.
-/

set_option linter.unusedVariables false

/-! ## Basic protocol vocabulary -/

/-- Semantic role of a transaction in the protocol (`farcaster_core::transaction::TxLabel`). -/
inductive TxLabel
  | Funding
  | Lock
  | Cancel
  | Refund
  | Buy
  | Punish
  | AccLock
  deriving DecidableEq, Repr

/-- The two chains (`farcaster_core::blockchain::Blockchain`). -/
inductive Blockchain
  | Bitcoin
  | Monero
  deriving DecidableEq, Repr

/-- Protocol roles (`farcaster_core::role::SwapRole`). -/
inductive SwapRole
  | Alice
  | Bob
  deriving DecidableEq, Repr

/-- Trade roles (`farcaster_core::role::TradeRole`). -/
inductive TradeRole
  | Maker
  | Taker
  deriving DecidableEq, Repr

/-- Swap outcome reported at the terminal state (`bus::Outcome`). -/
inductive Outcome
  | SuccessSwap
  | FailureRefund
  | FailurePunish
  | FailureAbort
  deriving DecidableEq, Repr

/-- Opaque commitment payload produced and verified by the wallet. -/
abbrev Commit := Nat

/-- Opaque reveal payload. -/
abbrev Reveal := Nat

/-- Opaque wallet handle (`swapd::wallet::Wallet`); its internals are external. -/
abbrev Wallet := Nat

/-- A bitcoin transaction, identified by its txid for the purposes of the
state machine (the machine only ever compares, stores and broadcasts them). -/
structure BitcoinTx where
  txid : Nat
  deriving DecidableEq, Repr

/-- Parameter payload: the spend/view components used by
`aggregate_xmr_spend_view`; everything else about params is opaque. -/
structure ParamsData where
  spend : Nat
  view : Nat
  deriving DecidableEq, Repr

/-- `bus::ctl::Params`. -/
inductive Params
  | Alice (p : ParamsData)
  | Bob (p : ParamsData)
  deriving DecidableEq, Repr

/-- `CoreArbitratingSetup` message payload: the three arbitrating PSBTs
(modelled by the transactions they extract to). -/
structure CoreArbSetup where
  lock : BitcoinTx
  cancel : BitcoinTx
  refund : BitcoinTx
  deriving DecidableEq, Repr

/-- `RefundProcedureSignatures` payload, opaque to the state machine. -/
abbrev RefundProcSigs := Nat

/-- `BuyProcedureSignature` payload: carries the buy PSBT. -/
structure BuyProcSig where
  buy : BitcoinTx
  deriving DecidableEq, Repr

/-- `MoneroFundingInfo` (src/swapd/swap_state.rs usage; runtime.rs struct). -/
structure MoneroFundingInfo where
  swap_id : Nat
  address : Nat
  amount : Nat
  deriving DecidableEq, Repr

/-- Sweep specification for a Monero ephemeral wallet (wallet-produced). -/
structure SweepXmrSpec where
  destination_address : Nat
  deriving DecidableEq, Repr

/-- Sweep specification for the Bitcoin funding address (wallet-produced). -/
structure SweepBtcSpec where
  source_address : Nat
  destination_address : Nat
  deriving DecidableEq, Repr

/-- Addendum of a `SweepAddress` task. -/
inductive SweepSpec
  | xmr (s : SweepXmrSpec)
  | btc (s : SweepBtcSpec)
  deriving DecidableEq, Repr

/-- `syncerd::SweepAddress` task payload. -/
structure SweepAddressTask where
  id : Nat
  addendum : SweepSpec
  retry : Bool
  deriving DecidableEq, Repr

/-- `syncerd::TaskTarget`. -/
inductive TaskTarget
  | AllTasks
  | OneTask (id : Nat)
  deriving DecidableEq, Repr

/-- Tasks submitted to a syncer (`syncerd::Task`; renamed as `Task` clashes with a core Lean type). -/
inductive SyncerTask
  | WatchAddressBtc (id : Nat) (addr : Nat)
  | WatchAddressXmr (id : Nat) (spend : Nat) (view : Nat) (from_height : Option Nat)
  | WatchTransactionBtc (id : Nat) (txid : Nat)
  | WatchTransactionXmr (id : Nat) (hash : Nat)
  | RetrieveTransaction (id : Nat) (txid : Nat)
  | SweepAddress (t : SweepAddressTask)
  | AbortTask (target : TaskTarget)
  | WatchHeight (id : Nat) (chain : Blockchain)
  | WatchEstimateFee (id : Nat)
  deriving DecidableEq, Repr

/-! ## Association-list helpers

The runtime's `HashMap`s are modelled as association lists with distinct
keys; insertion replaces, and `remove_entry` returns the removed pair. -/

def lookupA {κ ν : Type} [DecidableEq κ] (l : List (κ × ν)) (k : κ) : Option ν :=
  match l with
  | [] => none
  | kv :: t => if kv.1 = k then some kv.2 else lookupA t k

def containsA {κ ν : Type} [DecidableEq κ] (l : List (κ × ν)) (k : κ) : Bool :=
  match l with
  | [] => false
  | kv :: t => if kv.1 = k then true else containsA t k

def insertA {κ ν : Type} [DecidableEq κ] (l : List (κ × ν)) (k : κ) (v : ν) :
    List (κ × ν) :=
  match l with
  | [] => [(k, v)]
  | kv :: t => if kv.1 = k then (k, v) :: t else kv :: insertA t k v

def removeA {κ ν : Type} [DecidableEq κ] (l : List (κ × ν)) (k : κ) : List (κ × ν) :=
  match l with
  | [] => []
  | kv :: t => if kv.1 = k then t else kv :: removeA t k

/-- `HashMap::remove_entry`: the removed pair together with the rest. -/
def removeEntryA {κ ν : Type} [DecidableEq κ] (l : List (κ × ν)) (k : κ) :
    Option ((κ × ν) × List (κ × ν)) :=
  match lookupA l k with
  | none => none
  | some v => some ((k, v), removeA l k)

/-! ## Temporal safety

`swapd/temporal_safety.rs` is not part of this source snapshot. -/

/-- Modelled from the spec: `TemporalSafety` is pure configuration of
timelocks and thresholds (spec §3), all measured in blocks/confirmations. -/
structure TemporalSafety where
  cancel_timelock : Nat
  punish_timelock : Nat
  btc_finality_thr : Nat
  xmr_finality_thr : Nat
  sweep_monero_thr : Nat
  race_thr : Nat
  deriving DecidableEq, Repr

namespace TemporalSafety

/-- Modelled from the spec: `valid_params` enforces
`btc_finality_thr + race_thr < cancel_timelock` and
`cancel_timelock + race_thr < punish_timelock` (spec §3). -/
def valid_params (t : TemporalSafety) : Prop :=
  t.btc_finality_thr + t.race_thr < t.cancel_timelock ∧
    t.cancel_timelock + t.race_thr < t.punish_timelock

instance (t : TemporalSafety) : Decidable t.valid_params := by
  unfold valid_params; infer_instance

/-- Modelled from the spec: `final_tx(c, chain)` holds when the confirmation
count reached the chain's finality threshold (spec §3). -/
def final_tx (t : TemporalSafety) (c : Nat) (chain : Blockchain) : Bool :=
  match chain with
  | .Bitcoin => t.btc_finality_thr ≤ c
  | .Monero => t.xmr_finality_thr ≤ c

/-- Modelled from the spec: `valid_cancel(c)` holds when
`cancel_timelock ≤ c < punish_timelock − race_thr` (spec §3). -/
def valid_cancel (t : TemporalSafety) (c : Nat) : Bool :=
  t.cancel_timelock ≤ c && c < t.punish_timelock - t.race_thr

/-- Modelled from the spec: `safe_buy(c)` holds when
`c + race_thr < cancel_timelock` (spec §3). -/
def safe_buy (t : TemporalSafety) (c : Nat) : Bool :=
  c + t.race_thr < t.cancel_timelock

/-- Modelled from the spec: `safe_refund(c)` holds (on Cancel confirmations)
when `c + race_thr < punish_timelock` (spec §3). -/
def safe_refund (t : TemporalSafety) (c : Nat) : Bool :=
  c + t.race_thr < t.punish_timelock

/-- Modelled from the spec: `valid_punish(c)` holds (on Cancel confirmations)
when `punish_timelock ≤ c` (spec §3). -/
def valid_punish (t : TemporalSafety) (c : Nat) : Bool :=
  t.punish_timelock ≤ c

/-- Modelled from the spec: `stop_funding_before_cancel(c)` holds when
`c + race_thr ≥ cancel_timelock` (spec §3). -/
def stop_funding_before_cancel (t : TemporalSafety) (c : Nat) : Bool :=
  t.cancel_timelock ≤ c + t.race_thr

end TemporalSafety

/-! ## Syncer state

`swapd/syncer_client.rs` (`SyncerTasks`, `SyncerState` and their methods) is
not part of this source snapshot; the tables and operations are modelled from
spec §3 and §4.1. -/

/-- Modelled from the spec: the tables of in-flight syncer tasks (spec §3). -/
structure SyncerTasks where
  counter : Nat
  watched_addrs : List (Nat × TxLabel)
  watched_txs : List (Nat × TxLabel)
  retrieving_txs : List (Nat × (TxLabel × SyncerTask))
  sweeping_addr : Option Nat
  txids : List (TxLabel × Nat)
  final_txs : List (TxLabel × Bool)
  deriving DecidableEq, Repr

/-- A memoized `TransactionConfirmations` event (spec §4.5: the most recent
confirmation events for Lock and Cancel are replayed later). -/
structure TxConfsEvent where
  id : Nat
  confirmations : Option Nat
  deriving DecidableEq, Repr

/-- Modelled from the spec: `SyncerState` caches heights, the fee estimate,
confirmation counts, required amounts and the `awaiting_funding` flag
(spec §3). -/
structure SyncerState where
  tasks : SyncerTasks
  bitcoin_height : Nat
  monero_height : Nat
  btc_fee_estimate_sat_per_kvb : Option Nat
  lock_tx_confs : Option TxConfsEvent
  cancel_tx_confs : Option TxConfsEvent
  buy_tx_confs : Option TxConfsEvent
  confirmations : List (TxLabel × Option Nat)
  monero_amount : Nat
  bitcoin_amount : Nat
  awaiting_funding : Bool
  deriving DecidableEq, Repr

namespace SyncerState

/-- Modelled from the spec: `new_taskid()` returns the next id from the
monotonic counter (spec §4.1). -/
def new_taskid (s : SyncerState) : Nat × SyncerState :=
  (s.tasks.counter, { s with tasks.counter := s.tasks.counter + 1 })

/-- Modelled from the spec: `is_watched_addr(label)` — deduplication guard
over the address-watch table (spec §4.1). -/
def is_watched_addr (s : SyncerState) (label : TxLabel) : Bool :=
  s.tasks.watched_addrs.any (fun kv => kv.2 = label)

/-- Modelled from the spec: `is_watched_tx(label)` — deduplication guard over
the confirmation-watch table (spec §4.1). -/
def is_watched_tx (s : SyncerState) (label : TxLabel) : Bool :=
  s.tasks.watched_txs.any (fun kv => kv.2 = label)

/-- Modelled from the spec: `watch_addr_btc` registers an address watch,
inserts `(TaskId → TxLabel)` into `watched_addrs`, and returns the task
payload to send (spec §4.1). -/
def watch_addr_btc (s : SyncerState) (addr : Nat) (label : TxLabel) :
    SyncerTask × SyncerState :=
  let (id, s) := s.new_taskid
  (.WatchAddressBtc id addr,
   { s with tasks.watched_addrs := insertA s.tasks.watched_addrs id label })

/-- Modelled from the spec: `watch_addr_xmr` — as `watch_addr_btc` for the
Monero chain, with an optional from-height (spec §4.1). -/
def watch_addr_xmr (s : SyncerState) (spend view : Nat) (label : TxLabel)
    (from_height : Option Nat) : SyncerTask × SyncerState :=
  let (id, s) := s.new_taskid
  (.WatchAddressXmr id spend view from_height,
   { s with tasks.watched_addrs := insertA s.tasks.watched_addrs id label })

/-- Modelled from the spec: `watch_tx_btc` registers a confirmation watch in
`watched_txs` and returns the task (spec §4.1). -/
def watch_tx_btc (s : SyncerState) (txid : Nat) (label : TxLabel) :
    SyncerTask × SyncerState :=
  let (id, s) := s.new_taskid
  (.WatchTransactionBtc id txid,
   { s with tasks.watched_txs := insertA s.tasks.watched_txs id label })

/-- Modelled from the spec: `watch_tx_xmr` — as `watch_tx_btc` for Monero
(spec §4.1). -/
def watch_tx_xmr (s : SyncerState) (hash : Nat) (label : TxLabel) :
    SyncerTask × SyncerState :=
  let (id, s) := s.new_taskid
  (.WatchTransactionXmr id hash,
   { s with tasks.watched_txs := insertA s.tasks.watched_txs id label })

/-- Modelled from the spec: `retrieve_tx_btc` registers a retrieval and stores
the task so it can be re-sent after a retry delay (spec §4.1). -/
def retrieve_tx_btc (s : SyncerState) (txid : Nat) (label : TxLabel) :
    SyncerTask × SyncerState :=
  let (id, s) := s.new_taskid
  let task := SyncerTask.RetrieveTransaction id txid
  (task,
   { s with tasks.retrieving_txs := insertA s.tasks.retrieving_txs id (label, task) })

/-- Modelled from the spec: `sweep_xmr` issues a sweep task and records the
single allowed `sweeping_addr` (spec §4.1). -/
def sweep_xmr (s : SyncerState) (spec : SweepXmrSpec) (retry : Bool) :
    SyncerTask × SyncerState :=
  let (id, s) := s.new_taskid
  (.SweepAddress ⟨id, .xmr spec, retry⟩,
   { s with tasks.sweeping_addr := some id })

/-- Modelled from the spec: `sweep_btc` — as `sweep_xmr` for the Bitcoin
chain (spec §4.1). -/
def sweep_btc (s : SyncerState) (spec : SweepBtcSpec) (retry : Bool) :
    SyncerTask × SyncerState :=
  let (id, s) := s.new_taskid
  (.SweepAddress ⟨id, .btc spec, retry⟩,
   { s with tasks.sweeping_addr := some id })

/-- Modelled from the spec: `abort_task(id)` produces an Abort task for a
specific id (spec §4.1). -/
def abort_task (s : SyncerState) (id : Nat) : SyncerTask :=
  .AbortTask (.OneTask id)

/-- Modelled from the spec: `handle_tx_confs` updates `confirmations[label]`
and flips `final_txs[label]` when the count crosses the finality threshold
(spec §4.1). -/
def handle_tx_confs (s : SyncerState) (id : Nat) (confs : Option Nat)
    (finality_thr : Nat) : SyncerState :=
  match lookupA s.tasks.watched_txs id with
  | none => s
  | some label =>
    let s := { s with confirmations := insertA s.confirmations label confs }
    match confs with
    | some c =>
      if finality_thr ≤ c then
        { s with tasks.final_txs := insertA s.tasks.final_txs label true }
      else s
    | none => s

/-- Modelled from the spec: `get_confs(label)` reads the cached confirmation
count (spec §3). -/
def get_confs (s : SyncerState) (label : TxLabel) : Option Nat :=
  match lookupA s.confirmations label with
  | some (some c) => some c
  | _ => none

/-- Cached height of a chain. -/
def height (s : SyncerState) (chain : Blockchain) : Nat :=
  match chain with
  | .Bitcoin => s.bitcoin_height
  | .Monero => s.monero_height

end SyncerState

/-! ## Bus messages and events -/

/-- Peer protocol messages (`bus::p2p::PeerMsg`), payloads opaque. -/
inductive PeerMsg
  | TakerCommit (c : Commit)
  | MakerCommit (c : Commit)
  | Reveal (r : Reveal)
  | CoreArbitratingSetup (s : CoreArbSetup)
  | RefundProcedureSignatures (r : RefundProcSigs)
  | BuyProcedureSignature (b : BuyProcSig)
  | OfferNotFound
  deriving DecidableEq, Repr

/-- `InitTakerSwap` payload of the `TakeSwap` control message. -/
structure InitTakerSwap where
  peerd : Nat
  report_to : Nat
  swap_id : Nat
  key_manager : Nat
  target_bitcoin_address : Nat
  target_monero_address : Nat
  deriving DecidableEq, Repr

/-- `InitMakerSwap` payload of the `MakeSwap` control message. -/
structure InitMakerSwap where
  peerd : Nat
  report_to : Nat
  key_manager : Nat
  swap_id : Nat
  target_bitcoin_address : Nat
  target_monero_address : Nat
  commit : Commit
  deriving DecidableEq, Repr

/-- Control-bus messages consumed by the state machine. -/
inductive CtlMsg
  | TakeSwap (i : InitTakerSwap)
  | MakeSwap (i : InitMakerSwap)
  | AbortSwap
  deriving DecidableEq, Repr

/-- Syncer events (`syncerd::types::Event`).  The transaction of an
`AddressTransaction` is carried already deserialized. -/
inductive SyncEvent
  | AddressTransaction (id : Nat) (hash : Nat) (amount : Nat) (block : Nat) (tx : BitcoinTx)
  | TransactionConfirmations (id : Nat) (confirmations : Option Nat)
  | TransactionRetrieved (id : Nat) (tx : Option BitcoinTx)
  | SweepSuccess (id : Nat)
  | TaskAborted (ids : List Nat)
  | Empty (id : Nat)
  | HeightChanged (chain : Blockchain) (height : Nat)
  | FeeEstimation (sat_per_kvb : Nat)
  | TransactionBroadcasted (id : Nat)
  deriving DecidableEq, Repr

/-- A bus message: the `request` field of an `Event` fed to the machine. -/
inductive BusMsg
  | P2p (m : PeerMsg)
  | Ctl (m : CtlMsg)
  | Sync (e : SyncEvent)
  deriving DecidableEq, Repr

/-! ## State-machine payloads (swap_state.rs) -/

/-- Payload of the `BobInitMaker` state. -/
structure BobInitMaker where
  local_commit : Commit
  local_params : Params
  funding_address : Nat
  remote_commit : Commit
  wallet : Wallet
  reveal : Option Reveal
  deriving DecidableEq, Repr

/-- Payload of the `AliceInitMaker` state. -/
structure AliceInitMaker where
  local_params : Params
  remote_commit : Commit
  wallet : Wallet
  deriving DecidableEq, Repr

/-- Payload of the `BobInitTaker` state. -/
structure BobInitTaker where
  local_commit : Commit
  local_params : Params
  funding_address : Nat
  wallet : Wallet
  deriving DecidableEq, Repr

/-- Payload of the `AliceInitTaker` state. -/
structure AliceInitTaker where
  local_params : Params
  wallet : Wallet
  deriving DecidableEq, Repr

/-- Payload of the `AliceTakerMakerCommit` state. -/
structure AliceTakerMakerCommit where
  local_params : Params
  remote_commit : Commit
  wallet : Wallet
  deriving DecidableEq, Repr

/-- Payload of the `BobTakerMakerCommit` state. -/
structure BobTakerMakerCommit where
  local_commit : Commit
  local_params : Params
  funding_address : Nat
  remote_commit : Commit
  wallet : Wallet
  reveal : Option Reveal
  deriving DecidableEq, Repr

/-- Payload of the `BobReveal` state. -/
structure BobReveal where
  local_params : Params
  required_funding_amount : Nat
  funding_address : Nat
  remote_params : Params
  wallet : Wallet
  alice_reveal : Reveal
  deriving DecidableEq, Repr

/-- Payload of the `AliceReveal` state. -/
structure AliceReveal where
  local_params : Params
  remote_params : Params
  wallet : Wallet
  deriving DecidableEq, Repr

/-- Payload of the `BobFunded` state. -/
structure BobFunded where
  local_params : Params
  funding_address : Nat
  remote_params : Params
  wallet : Wallet
  deriving DecidableEq, Repr

/-- Payload of the `AliceCoreArbitratingSetup` state. -/
structure AliceCoreArbitratingSetup where
  local_params : Params
  remote_params : Params
  wallet : Wallet
  deriving DecidableEq, Repr

/-- Payload of the `BobRefundProcedureSignatures` state. -/
structure BobRefundProcedureSignatures where
  local_params : Params
  funding_address : Nat
  remote_params : Params
  wallet : Wallet
  buy_procedure_signature : BuyProcSig
  deriving DecidableEq, Repr

/-- Payload of the `AliceArbitratingLockFinal` state. -/
structure AliceArbitratingLockFinal where
  wallet : Wallet
  funding_info : MoneroFundingInfo
  required_funding_amount : Nat
  deriving DecidableEq, Repr

/-- Payload of the `BobAccordantLock` state. -/
structure BobAccordantLock where
  local_params : Params
  funding_address : Nat
  remote_params : Params
  wallet : Wallet
  buy_procedure_signature : BuyProcSig
  deriving DecidableEq, Repr

/-- Payload of the `AliceAccordantLock` state. -/
structure AliceAccordantLock where
  wallet : Wallet
  deriving DecidableEq, Repr

/-- Payload of the `BobAccordantLockFinal` state. -/
structure BobAccordantLockFinal where
  local_params : Params
  funding_address : Nat
  remote_params : Params
  wallet : Wallet
  deriving DecidableEq, Repr

/-- Payload of the `AliceCanceled` state. -/
structure AliceCanceled where
  wallet : Wallet
  deriving DecidableEq, Repr

/-- The swap state machine (`SwapStateMachine` in swap_state.rs). -/
inductive SwapStateMachine
  | StartTaker (swap_role : SwapRole)
  | StartMaker (swap_role : SwapRole)
  | BobInitMaker (s : BobInitMaker)
  | AliceInitMaker (s : AliceInitMaker)
  | BobInitTaker (s : BobInitTaker)
  | AliceInitTaker (s : AliceInitTaker)
  | BobTakerMakerCommit (s : BobTakerMakerCommit)
  | AliceTakerMakerCommit (s : AliceTakerMakerCommit)
  | BobReveal (s : BobReveal)
  | BobFunded (s : BobFunded)
  | BobRefundProcedureSignatures (s : BobRefundProcedureSignatures)
  | BobAccordantLock (s : BobAccordantLock)
  | BobAccordantLockFinal (s : BobAccordantLockFinal)
  | BobBuyFinal (t : SweepAddressTask)
  | BobBuySweeping
  | BobCanceled
  | BobCancelFinal
  | BobAbortAwaitingBitcoinSweep
  | AliceReveal (s : AliceReveal)
  | AliceCoreArbitratingSetup (s : AliceCoreArbitratingSetup)
  | AliceArbitratingLockFinal (s : AliceArbitratingLockFinal)
  | AliceAccordantLock (s : AliceAccordantLock)
  | AliceBuyProcedureSignature
  | AliceCanceled (s : AliceCanceled)
  | AliceRefund (t : SweepAddressTask)
  | AliceRefundSweeping
  | AlicePunish
  | SwapEnd (o : Outcome)
  deriving DecidableEq, Repr

/-! ## Effects

Everything a transition sends on a bus: syncer tasks, broadcasts, peer
messages, control reports, checkpoints, and the `handle_sync` replays. -/

inductive Effect
  | SyncTaskBtc (t : SyncerTask)
  | SyncTaskXmr (t : SyncerTask)
  | Broadcast (label : TxLabel) (tx : BitcoinTx)
  | Peer (m : PeerMsg)
  | CtlFundingCompleted (chain : Blockchain)
  | CtlFundingCanceled (chain : Blockchain)
  | CtlFundingInfoBtc (amount : Nat) (address : Nat)
  | CtlFundingInfoXmr (info : MoneroFundingInfo)
  | CtlFailure (info : String)
  | ClientInfo (s : String)
  | Progress (s : String)
  | Ckpt (last_msg : Option PeerMsg) (st : SwapStateMachine)
  | ReplaySync (e : TxConfsEvent)
  deriving DecidableEq, Repr

/-! ## Runtime -/

/-- The mutable runtime fields the state-machine transitions read and write
(`swapd::runtime::Runtime`). -/
structure Runtime where
  swap_id : Nat
  identity_swap_id : Nat
  peer_service : Nat
  connected : Bool
  enquirer : Option Nat
  syncer_state : SyncerState
  temporal_safety : TemporalSafety
  txs : List (TxLabel × BitcoinTx)
  monero_address_creation_height : Option Nat
  deriving DecidableEq, Repr

/-- Errors surfaced by a transition; `panicUnwrap` models a failing
`.unwrap()` inside a transition body. -/
inductive SwapError
  | farcaster (msg : String)
  | walletFailure
  | panicUnwrap
  deriving DecidableEq, Repr

/-- Result of one state-machine step: `none` means "event ignored, stay". -/
abbrev TransRes := Except SwapError (Option SwapStateMachine × Runtime × List Effect)

/-- `aggregate_xmr_spend_view` (runtime.rs): sums the two parties' spend keys
and shared view keys. -/
def aggregate_xmr_spend_view (alice_params bob_params : ParamsData) : Nat × Nat :=
  (alice_params.spend + bob_params.spend, alice_params.view + bob_params.view)

/-- Opaque stand-in for `monero::Address::from_viewpair`. -/
def monero_address_from_viewpair (spend view : Nat) : Nat :=
  spend * 1000003 + view

/-- `Runtime::broadcast` (runtime.rs): allocates a task id and sends a
`BroadcastTransaction` task for `tx` to the Bitcoin syncer; modelled as a
labelled broadcast effect (the label is what the call site passes). -/
def Runtime.broadcast (rt : Runtime) (tx : BitcoinTx) (label : TxLabel) :
    Runtime × Effect :=
  let (_, sy) := rt.syncer_state.new_taskid
  ({ rt with syncer_state := sy }, .Broadcast label tx)

/-- Modelled from the spec: `Runtime::ask_bob_to_fund` computes the required
funding amount as the arbitrating amount plus a 200-satoshi fee buffer
(spec §9 open question 3), reports `FundingInfo(Bitcoin)` and raises the
`awaiting_funding` flag. -/
def Runtime.ask_bob_to_fund (rt : Runtime) (sat_per_kvb : Nat)
    (funding_address : Nat) : Nat × Runtime × List Effect :=
  let amount := rt.syncer_state.bitcoin_amount + 200
  (amount, { rt with syncer_state.awaiting_funding := true },
   [.CtlFundingInfoBtc amount funding_address])

/-- Modelled from the spec: `watch_fee_and_height` starts fee estimation and
block-height tracking ("Triggers watch fee and height"). -/
def Runtime.watch_fee_and_height (rt : Runtime) : Runtime × List Effect :=
  let (id1, sy) := rt.syncer_state.new_taskid
  let (id2, sy) := sy.new_taskid
  ({ rt with syncer_state := sy },
   [.SyncTaskBtc (.WatchEstimateFee id1), .SyncTaskBtc (.WatchHeight id2 .Bitcoin)])

/-- Shared idiom of swap_state.rs: register a Bitcoin confirmation watch for
`label` unless one is already active. -/
def watch_tx_btc_if_new (rt : Runtime) (txid : Nat) (label : TxLabel) :
    Runtime × List Effect :=
  if rt.syncer_state.is_watched_tx label then (rt, [])
  else
    let (task, sy) := rt.syncer_state.watch_tx_btc txid label
    ({ rt with syncer_state := sy }, [.SyncTaskBtc task])

/-! ## Wallet boundary -/

/-- `HandleRefundProcedureSignaturesRes` (swapd::wallet). -/
structure HandleRefundProcedureSignaturesRes where
  buy_procedure_signature : BuyProcSig
  lock_tx : BitcoinTx
  cancel_tx : BitcoinTx
  refund_tx : BitcoinTx
  deriving DecidableEq, Repr

/-- `HandleCoreArbitratingSetupRes` (swapd::wallet). -/
structure HandleCoreArbitratingSetupRes where
  refund_procedure_signatures : RefundProcSigs
  cancel_tx : BitcoinTx
  punish_tx : BitcoinTx
  deriving DecidableEq, Repr

/-- `HandleBuyProcedureSignatureRes` (swapd::wallet). -/
structure HandleBuyProcedureSignatureRes where
  cancel_tx : BitcoinTx
  buy_tx : BitcoinTx
  deriving DecidableEq, Repr

/-- Oracle record for the external wallet and the reveal validator: each
fallible call returns `none` on failure.  Mutating calls return the updated
wallet. -/
structure WalletOps where
  new_taker : InitTakerSwap → Option Wallet
  new_maker : InitMakerSwap → Option Wallet
  local_params : Wallet → Params
  funding_address : Wallet → Option Nat
  taker_commit : Params → Option Commit
  maker_commit : Nat → Params → Option Commit
  validate_reveal : Reveal → Commit → Option Params
  handle_maker_commit : Wallet → Commit → Option (Wallet × Reveal)
  handle_bob_reveals : Wallet → Reveal → Option (Wallet × Option Reveal)
  process_funding_tx : Wallet → BitcoinTx → Option Wallet
  handle_alice_reveals : Wallet → Reveal → Option (Wallet × Option Reveal × CoreArbSetup)
  handle_refund_procedure_signatures :
    Wallet → RefundProcSigs → Option (Wallet × HandleRefundProcedureSignaturesRes)
  handle_core_arbitrating_setup :
    Wallet → CoreArbSetup → Option (Wallet × HandleCoreArbitratingSetupRes)
  handle_buy_procedure_signature :
    Wallet → BuyProcSig → Option (Wallet × HandleBuyProcedureSignatureRes)
  process_buy_tx : Wallet → BitcoinTx → Option SweepXmrSpec
  process_refund_tx : Wallet → BitcoinTx → Option SweepXmrSpec
  process_get_sweep_bitcoin_address : Wallet → Nat → Option SweepBtcSpec

/-! ## Transition functions (swap_state.rs) -/

/-- `handle_abort_swap`: report and end the swap with `FailureAbort`. -/
def handle_abort_swap (rt : Runtime) : TransRes :=
  .ok (some (.SwapEnd .FailureAbort), rt, [.ClientInfo "Aborted swap"])

/-- `handle_abort_impossible`: refuse a manual abort after lock-in. -/
def handle_abort_impossible (rt : Runtime) : TransRes :=
  .ok (none, rt,
   [.CtlFailure "Swap is already locked-in, cannot manually abort anymore."])

/-- `handle_bob_abort_swap`: obtain a sweep spec for the funding address from
the wallet, issue the sweep task and move to `BobAbortAwaitingBitcoinSweep`. -/
def handle_bob_abort_swap (ops : WalletOps) (rt : Runtime) (wallet : Wallet)
    (funding_address : Nat) : TransRes :=
  match ops.process_get_sweep_bitcoin_address wallet funding_address with
  | none => .error .walletFailure
  | some sweep_btc =>
    let (task, sy) := rt.syncer_state.sweep_btc sweep_btc false
    .ok (some .BobAbortAwaitingBitcoinSweep, { rt with syncer_state := sy },
         [.SyncTaskBtc task,
          .ClientInfo "Aborting swap, checking if funds can be sweeped."])

/-- `attempt_transition_to_init_taker`. -/
def attempt_transition_to_init_taker (ops : WalletOps) (event : BusMsg)
    (rt : Runtime) (swap_role : SwapRole) : TransRes :=
  match event with
  | .Ctl (.TakeSwap i) =>
    if i.swap_id ≠ rt.identity_swap_id then .ok (none, rt, [])
    else
      let (rt, effs0) := rt.watch_fee_and_height
      let rt := { rt with peer_service := i.peerd, connected := i.peerd ≠ 0,
                          enquirer := some i.report_to }
      match ops.new_taker i with
      | none => .error .walletFailure
      | some wallet =>
        let local_params := ops.local_params wallet
        let funding_address := ops.funding_address wallet
        match ops.taker_commit local_params with
        | none => .error .walletFailure
        | some local_commit =>
          let effs := effs0 ++ [Effect.Peer (.TakerCommit local_commit)]
          match swap_role with
          | .Bob =>
            match funding_address with
            | none => .error .panicUnwrap
            | some addr =>
              .ok (some (.BobInitTaker ⟨local_commit, local_params, addr, wallet⟩),
                   rt, effs)
          | .Alice =>
            .ok (some (.AliceInitTaker ⟨local_params, wallet⟩), rt, effs)
  | .Ctl .AbortSwap => handle_abort_swap rt
  | _ => .ok (none, rt, [])

/-- `attempt_transition_to_init_maker`. -/
def attempt_transition_to_init_maker (ops : WalletOps) (event : BusMsg)
    (rt : Runtime) (swap_role : SwapRole) : TransRes :=
  match event with
  | .Ctl (.MakeSwap i) =>
    let (rt, effs0) := rt.watch_fee_and_height
    match ops.new_maker i with
    | none => .error .walletFailure
    | some wallet =>
      let local_params := ops.local_params wallet
      let funding_address := ops.funding_address wallet
      let rt := { rt with peer_service := i.peerd,
                          connected := (i.peerd ≠ 0) || rt.connected,
                          enquirer := some i.report_to }
      match ops.maker_commit i.swap_id local_params with
      | none => .error .walletFailure
      | some local_commit =>
        let effs := effs0 ++ [Effect.Peer (.MakerCommit local_commit)]
        match swap_role with
        | .Bob =>
          match funding_address with
          | none => .error .panicUnwrap
          | some addr =>
            .ok (some (.BobInitMaker
                  ⟨local_commit, local_params, addr, i.commit, wallet, none⟩),
                 rt, effs)
        | .Alice =>
          .ok (some (.AliceInitMaker ⟨local_params, i.commit, wallet⟩), rt, effs)
  | .Ctl .AbortSwap => handle_abort_swap rt
  | _ => .ok (none, rt, [])

/-- `try_bob_init_taker_to_bob_taker_maker_commit`. -/
def try_bob_init_taker_to_bob_taker_maker_commit (ops : WalletOps) (event : BusMsg)
    (rt : Runtime) (s : BobInitTaker) : TransRes :=
  match event with
  | .P2p .OfferNotFound => handle_bob_abort_swap ops rt s.wallet s.funding_address
  | .P2p (.MakerCommit remote_commit) =>
    let p1 :=
      if rt.syncer_state.is_watched_addr .Funding then (rt, [])
      else
        let tsy := rt.syncer_state.watch_addr_btc s.funding_address .Funding
        ({ rt with syncer_state := tsy.2 }, [Effect.SyncTaskBtc tsy.1])
    let rt := p1.1
    let effs1 := p1.2
    match ops.handle_maker_commit s.wallet remote_commit with
    | none => .error .walletFailure
    | some (wallet, reveal) =>
      .ok (some (.BobTakerMakerCommit
            ⟨s.local_commit, s.local_params, s.funding_address, remote_commit,
             wallet, none⟩),
           rt, effs1 ++ [.Peer (.Reveal reveal)])
  | .Ctl .AbortSwap => handle_bob_abort_swap ops rt s.wallet s.funding_address
  | _ => .ok (none, rt, [])

/-- `try_alice_init_taker_to_alice_taker_maker_commit`. -/
def try_alice_init_taker_to_alice_taker_maker_commit (ops : WalletOps)
    (event : BusMsg) (rt : Runtime) (s : AliceInitTaker) : TransRes :=
  match event with
  | .P2p .OfferNotFound => handle_abort_swap rt
  | .P2p (.MakerCommit remote_commit) =>
    match ops.handle_maker_commit s.wallet remote_commit with
    | none => .error .walletFailure
    | some (wallet, reveal) =>
      .ok (some (.AliceTakerMakerCommit ⟨s.local_params, remote_commit, wallet⟩),
           rt, [.Peer (.Reveal reveal)])
  | .Ctl .AbortSwap => handle_abort_swap rt
  | _ => .ok (none, rt, [])

/-- `attempt_transition_to_bob_reveal`: shared by `BobInitMaker` and
`BobTakerMakerCommit`.  When no fee estimate is known the Reveal is retained
in the state payload; any later event re-evaluates it once a fee estimate is
available. -/
def attempt_transition_to_bob_reveal (ops : WalletOps) (event : BusMsg)
    (rt : Runtime) (local_commit : Commit) (local_params : Params)
    (funding_address : Nat) (remote_commit : Commit)
    (local_trade_role : TradeRole) (wallet : Wallet) (reveal : Option Reveal) :
    TransRes :=
  match event with
  | .P2p (.Reveal r) =>
    match ops.validate_reveal r remote_commit with
    | none => .error (.farcaster "remote params validation failed")
    | some remote_params =>
      match rt.syncer_state.btc_fee_estimate_sat_per_kvb with
      | some sat_per_kvb =>
        let q := rt.ask_bob_to_fund sat_per_kvb funding_address
        let required_funding_amount := q.1
        let rt := q.2.1
        let effs0 := q.2.2
        let p1 :=
          if rt.syncer_state.is_watched_addr .Funding then (rt, [])
          else
            let tsy := rt.syncer_state.watch_addr_btc funding_address .Funding
            ({ rt with syncer_state := tsy.2 }, [Effect.SyncTaskBtc tsy.1])
        let rt := p1.1
        let effs1 := p1.2
        .ok (some (.BobReveal
              ⟨local_params, required_funding_amount, funding_address,
               remote_params, wallet, r⟩),
             rt, effs0 ++ effs1)
      | none =>
        match local_trade_role with
        | .Maker =>
          .ok (some (.BobInitMaker
                ⟨local_commit, local_params, funding_address, remote_commit,
                 wallet, some r⟩), rt, [])
        | .Taker =>
          .ok (some (.BobTakerMakerCommit
                ⟨local_commit, local_params, funding_address, remote_commit,
                 wallet, some r⟩), rt, [])
  | .Ctl .AbortSwap => handle_bob_abort_swap ops rt wallet funding_address
  | _ =>
    match reveal, rt.syncer_state.btc_fee_estimate_sat_per_kvb with
    | some r, some sat_per_kvb =>
      match ops.validate_reveal r remote_commit with
      | none => .error (.farcaster "Remote params validation failed")
      | some remote_params =>
        let q := rt.ask_bob_to_fund sat_per_kvb funding_address
        let required_funding_amount := q.1
        let rt := q.2.1
        let effs0 := q.2.2
        let p1 :=
          if rt.syncer_state.is_watched_addr .Funding then (rt, [])
          else
            let tsy := rt.syncer_state.watch_addr_btc funding_address .Funding
            ({ rt with syncer_state := tsy.2 }, [Effect.SyncTaskBtc tsy.1])
        let rt := p1.1
        let effs1 := p1.2
        .ok (some (.BobReveal
              ⟨local_params, required_funding_amount, funding_address,
               remote_params, wallet, r⟩),
             rt, effs0 ++ effs1)
    | _, _ => .ok (none, rt, [])

/-- `try_bob_taker_maker_commit_to_bob_reveal`. -/
def try_bob_taker_maker_commit_to_bob_reveal (ops : WalletOps) (event : BusMsg)
    (rt : Runtime) (s : BobTakerMakerCommit) : TransRes :=
  attempt_transition_to_bob_reveal ops event rt s.local_commit s.local_params
    s.funding_address s.remote_commit .Taker s.wallet s.reveal

/-- `try_bob_init_maker_to_bob_reveal`. -/
def try_bob_init_maker_to_bob_reveal (ops : WalletOps) (event : BusMsg)
    (rt : Runtime) (s : BobInitMaker) : TransRes :=
  attempt_transition_to_bob_reveal ops event rt s.local_commit s.local_params
    s.funding_address s.remote_commit .Maker s.wallet s.reveal

/-- `attempt_transition_to_alice_reveal`. -/
def attempt_transition_to_alice_reveal (ops : WalletOps) (event : BusMsg)
    (rt : Runtime) (local_params : Params) (remote_commit : Commit)
    (wallet : Wallet) : TransRes :=
  match event with
  | .P2p (.Reveal r) =>
    match ops.validate_reveal r remote_commit with
    | none => .error (.farcaster "Remote params validation failed")
    | some remote_params =>
      match ops.handle_bob_reveals wallet r with
      | none => .error .walletFailure
      | some (wallet, reveal_out) =>
        let effs := match reveal_out with
          | some rv => [Effect.Peer (.Reveal rv)]
          | none => []
        .ok (some (.AliceReveal ⟨local_params, remote_params, wallet⟩), rt, effs)
  | .Ctl .AbortSwap => handle_abort_swap rt
  | _ => .ok (none, rt, [])

/-- `try_alice_taker_maker_commit_to_alice_reveal`. -/
def try_alice_taker_maker_commit_to_alice_reveal (ops : WalletOps) (event : BusMsg)
    (rt : Runtime) (s : AliceTakerMakerCommit) : TransRes :=
  attempt_transition_to_alice_reveal ops event rt s.local_params s.remote_commit
    s.wallet

/-- `try_alice_init_maker_to_alice_reveal`. -/
def try_alice_init_maker_to_alice_reveal (ops : WalletOps) (event : BusMsg)
    (rt : Runtime) (s : AliceInitMaker) : TransRes :=
  attempt_transition_to_alice_reveal ops event rt s.local_params s.remote_commit
    s.wallet

/-- `try_bob_reveal_to_bob_funded`: Bob's funding-amount policy.  An exact
amount completes funding; any deviation starts the abort-and-sweep path. -/
def try_bob_reveal_to_bob_funded (ops : WalletOps) (event : BusMsg) (rt : Runtime)
    (s : BobReveal) : TransRes :=
  match event with
  | .Sync (.AddressTransaction id hash amount block tx) =>
    if lookupA rt.syncer_state.tasks.watched_addrs id = some .Funding
        ∧ rt.syncer_state.awaiting_funding = true then
      let rt := { rt with syncer_state.awaiting_funding := false }
      if amount ≠ s.required_funding_amount then
        match handle_bob_abort_swap ops rt s.wallet s.funding_address with
        | .error e => .error e
        | .ok (st, rt, effs) =>
          .ok (st, rt,
               Effect.Progress "Incorrect amount funded. Do not fund this swap anymore, will abort and attempt to sweep the Bitcoin to the provided address."
                 :: effs)
      else
        match ops.process_funding_tx s.wallet tx with
        | none => .error .walletFailure
        | some wallet =>
          match ops.handle_alice_reveals wallet s.alice_reveal with
          | none => .error .walletFailure
          | some (wallet, reveal_out, core_arb_setup) =>
            let effs1 := match reveal_out with
              | some rv => [Effect.Peer (.Reveal rv)]
              | none => []
            let p2 := watch_tx_btc_if_new rt core_arb_setup.lock.txid .Lock
            let p3 := watch_tx_btc_if_new p2.1 core_arb_setup.cancel.txid .Cancel
            let p4 := watch_tx_btc_if_new p3.1 core_arb_setup.refund.txid .Refund
            let rt := p4.1
            let effs2 := p2.2
            let effs3 := p3.2
            let effs4 := p4.2
            let h := some (rt.syncer_state.height .Monero)
            let rt := match rt.monero_address_creation_height with
              | none => { rt with monero_address_creation_height := h }
              | some _ => rt
            let new_ssm := SwapStateMachine.BobFunded
              ⟨s.local_params, s.funding_address, s.remote_params, wallet⟩
            .ok (some new_ssm, rt,
                 [Effect.CtlFundingCompleted .Bitcoin] ++ effs1 ++ effs2 ++ effs3
                   ++ effs4
                   ++ [.Ckpt (some (.CoreArbitratingSetup core_arb_setup)) new_ssm,
                       .Peer (.CoreArbitratingSetup core_arb_setup)])
    else .ok (none, rt, [])
  | .Ctl .AbortSwap => handle_bob_abort_swap ops rt s.wallet s.funding_address
  | _ => .ok (none, rt, [])

/-- `try_bob_funded_to_bob_refund_procedure_signature`: validates the refund
procedure signatures with the wallet, broadcasts Lock, stores Cancel and
Refund, and checkpoints Bob pre buy. -/
def try_bob_funded_to_bob_refund_procedure_signature (ops : WalletOps)
    (event : BusMsg) (rt : Runtime) (s : BobFunded) : TransRes :=
  match event with
  | .P2p (.RefundProcedureSignatures refund_proc) =>
    match ops.handle_refund_procedure_signatures s.wallet refund_proc with
    | none => .error .walletFailure
    | some (wallet, res) =>
      let pb := rt.broadcast res.lock_tx .Lock
      let rt := pb.1
      let eff_bc := pb.2
      let p1 :=
        match s.local_params, s.remote_params with
        | .Bob bob_params, .Alice alice_params =>
          let sv := aggregate_xmr_spend_view alice_params bob_params
          if rt.syncer_state.is_watched_addr .AccLock then (rt, [])
          else
            let tsy := rt.syncer_state.watch_addr_xmr sv.1 sv.2 .AccLock none
            ({ rt with syncer_state := tsy.2 }, [Effect.SyncTaskXmr tsy.1])
        | _, _ => (rt, [])
      let rt := p1.1
      let effs1 := p1.2
      let txs2 := insertA (insertA rt.txs .Cancel res.cancel_tx) .Refund res.refund_tx
      let rt := { rt with txs := txs2 }
      let effs2 := match rt.syncer_state.lock_tx_confs with
        | some req => [Effect.ReplaySync req]
        | none => []
      let effs3 := match rt.syncer_state.cancel_tx_confs with
        | some req => [Effect.ReplaySync req]
        | none => []
      let p4 := watch_tx_btc_if_new rt res.buy_procedure_signature.buy.txid .Buy
      let rt := p4.1
      let effs4 := p4.2
      let new_ssm := SwapStateMachine.BobRefundProcedureSignatures
        ⟨s.local_params, s.funding_address, s.remote_params, wallet,
         res.buy_procedure_signature⟩
      .ok (some new_ssm, rt,
           [eff_bc] ++ effs1 ++ effs2 ++ effs3 ++ effs4 ++ [.Ckpt none new_ssm])
  | .Ctl .AbortSwap => handle_bob_abort_swap ops rt s.wallet s.funding_address
  | _ => .ok (none, rt, [])

/-- `handle_bob_swap_interrupt_after_lock`: Bob's shared cancel/abort handling
once the lock is in flight. -/
def handle_bob_swap_interrupt_after_lock (event : BusMsg) (rt : Runtime) :
    TransRes :=
  match event with
  | .Ctl .AbortSwap => handle_abort_impossible rt
  | .Sync (.TransactionConfirmations id (some confirmations)) =>
    if rt.temporal_safety.final_tx confirmations .Bitcoin = true
        ∧ lookupA rt.syncer_state.tasks.watched_txs id = some .Lock
        ∧ rt.temporal_safety.valid_cancel confirmations = true
        ∧ containsA rt.txs .Cancel = true then
      match removeEntryA rt.txs .Cancel with
      | none => .error .panicUnwrap
      | some ((tx_label, cancel_tx), rest) =>
        let rt := { rt with txs := rest }
        let pb := rt.broadcast cancel_tx tx_label
        .ok (none, pb.1, [pb.2])
    else if lookupA rt.syncer_state.tasks.watched_txs id = some .Cancel then
      .ok (some .BobCanceled, rt, [])
    else .ok (none, rt, [])
  | _ => .ok (none, rt, [])

/-- `handle_alice_swap_interrupt_afer_lock` (name kept from the source):
Alice's shared cancel/abort handling once the lock is in flight.  Its final
Cancel arm duplicates the first and is unreachable in the source; the first
arm subsumes it here. -/
def handle_alice_swap_interrupt_afer_lock (event : BusMsg) (rt : Runtime)
    (wallet : Wallet) : TransRes :=
  match event with
  | .Sync (.TransactionConfirmations id (some confirmations)) =>
    if lookupA rt.syncer_state.tasks.watched_txs id = some .Cancel then
      let p1 :=
        if rt.syncer_state.awaiting_funding then
          ({ rt with syncer_state.awaiting_funding := false },
           [Effect.CtlFundingCanceled .Monero])
        else (rt, [])
      .ok (some (.AliceCanceled ⟨wallet⟩), p1.1, p1.2)
    else if lookupA rt.syncer_state.tasks.watched_txs id = some .Lock
        ∧ rt.temporal_safety.valid_cancel confirmations = true
        ∧ containsA rt.txs .Cancel = true then
      match removeEntryA rt.txs .Cancel with
      | none => .error .panicUnwrap
      | some ((tx_label, cancel_tx), rest) =>
        let rt := { rt with txs := rest }
        let pb := rt.broadcast cancel_tx tx_label
        .ok (none, pb.1, [pb.2])
    else .ok (none, rt, [])
  | .Ctl .AbortSwap => handle_abort_impossible rt
  | _ => .ok (none, rt, [])

/-- `try_bob_refund_procedure_signatures_to_bob_accordant_lock`. -/
def try_bob_refund_procedure_signatures_to_bob_accordant_lock (event : BusMsg)
    (rt : Runtime) (s : BobRefundProcedureSignatures) : TransRes :=
  match event with
  | .Sync (.AddressTransaction id hash amount block tx) =>
    if containsA rt.syncer_state.tasks.watched_addrs id = true
        ∧ rt.syncer_state.is_watched_addr .AccLock = true
        ∧ lookupA rt.syncer_state.tasks.watched_addrs id = some .AccLock then
      if amount < rt.syncer_state.monero_amount then .ok (none, rt, [])
      else
        match lookupA rt.syncer_state.tasks.watched_addrs id with
        | some tx_label =>
          let wa2 := removeA rt.syncer_state.tasks.watched_addrs id
          let rt := { rt with syncer_state.tasks.watched_addrs := wa2 }
          let abort_task := rt.syncer_state.abort_task id
          let p1 :=
            if rt.syncer_state.is_watched_tx tx_label then (rt, [])
            else
              let tsy := rt.syncer_state.watch_tx_xmr hash tx_label
              ({ rt with syncer_state := tsy.2 }, [Effect.SyncTaskXmr tsy.1])
          .ok (some (.BobAccordantLock
                ⟨s.local_params, s.funding_address, s.remote_params, s.wallet,
                 s.buy_procedure_signature⟩),
               p1.1, p1.2 ++ [.SyncTaskXmr abort_task])
        | none =>
          .ok (some (.BobAccordantLock
                ⟨s.local_params, s.funding_address, s.remote_params, s.wallet,
                 s.buy_procedure_signature⟩), rt, [])
    else handle_bob_swap_interrupt_after_lock event rt
  | _ => handle_bob_swap_interrupt_after_lock event rt

/-- `try_bob_accordant_lock_to_bob_accordant_lock_final`: sends the
BuyProcedureSignature once AccLock reaches Monero finality. -/
def try_bob_accordant_lock_to_bob_accordant_lock_final (event : BusMsg)
    (rt : Runtime) (s : BobAccordantLock) : TransRes :=
  match event with
  | .Sync (.TransactionConfirmations id (some confirmations)) =>
    if rt.temporal_safety.final_tx confirmations .Monero = true
        ∧ lookupA rt.syncer_state.tasks.watched_txs id = some .AccLock then
      .ok (some (.BobAccordantLockFinal
            ⟨s.local_params, s.funding_address, s.remote_params, s.wallet⟩),
           rt, [.Peer (.BuyProcedureSignature s.buy_procedure_signature)])
    else handle_bob_swap_interrupt_after_lock event rt
  | _ => handle_bob_swap_interrupt_after_lock event rt

/-- `try_bob_accordant_lock_final_to_bob_buy_final`.  In the source the
retrieving-txs entry is removed inside the match guard, so a non-Buy entry is
removed even when the arm is not taken. -/
def try_bob_accordant_lock_final_to_bob_buy_final (ops : WalletOps)
    (event : BusMsg) (rt : Runtime) (s : BobAccordantLockFinal) : TransRes :=
  match event with
  | .Sync (.TransactionConfirmations id (some confirmations)) =>
    if rt.temporal_safety.final_tx confirmations .Bitcoin = true
        ∧ lookupA rt.syncer_state.tasks.watched_txs id = some .Buy
        ∧ containsA rt.syncer_state.tasks.txids .Buy = true then
      let sy2 := rt.syncer_state.handle_tx_confs id (some confirmations) rt.temporal_safety.btc_finality_thr
      let rt := { rt with syncer_state := sy2 }
      match removeEntryA rt.syncer_state.tasks.txids .Buy with
      | none => .error .panicUnwrap
      | some ((txlabel, txid), rest) =>
        let rt := { rt with syncer_state.tasks.txids := rest }
        let tsy := rt.syncer_state.retrieve_tx_btc txid txlabel
        .ok (some (.BobAccordantLockFinal
              ⟨s.local_params, s.funding_address, s.remote_params, s.wallet⟩),
             { rt with syncer_state := tsy.2 }, [.SyncTaskBtc tsy.1])
    else handle_bob_swap_interrupt_after_lock event rt
  | .Sync (.TransactionRetrieved id (some tx)) =>
    match removeEntryA rt.syncer_state.tasks.retrieving_txs id with
    | some ((_, (TxLabel.Buy, _)), rest) =>
      let rt := { rt with syncer_state.tasks.retrieving_txs := rest }
      match ops.process_buy_tx s.wallet tx with
      | none => .error .walletFailure
      | some sweep_xmr =>
        let tsy := rt.syncer_state.sweep_xmr sweep_xmr true
        let rt := { rt with syncer_state := tsy.2 }
        match tsy.1 with
        | .SweepAddress sweep_address => .ok (some (.BobBuyFinal sweep_address), rt, [])
        | _ => .ok (none, rt, [])
    | some (_, rest) =>
      handle_bob_swap_interrupt_after_lock event
        { rt with syncer_state.tasks.retrieving_txs := rest }
    | none => handle_bob_swap_interrupt_after_lock event rt
  | _ => handle_bob_swap_interrupt_after_lock event rt

/-- `try_bob_buy_final_to_bob_buy_sweeping`. -/
def try_bob_buy_final_to_bob_buy_sweeping (event : BusMsg) (rt : Runtime)
    (task : SweepAddressTask) : TransRes :=
  match event with
  | .Sync (.TransactionConfirmations id (some confirmations)) =>
    if rt.temporal_safety.sweep_monero_thr ≤ confirmations then
      .ok (some .BobBuySweeping, rt, [.SyncTaskXmr (.SweepAddress task)])
    else .ok (none, rt, [])
  | _ => .ok (none, rt, [])

/-- `try_bob_cancel_final_to_swap_end`: Refund finality ends the swap with
`FailureRefund`. -/
def try_bob_cancel_final_to_swap_end (event : BusMsg) (rt : Runtime) : TransRes :=
  match event with
  | .Sync (.TransactionConfirmations id (some confirmations)) =>
    if rt.temporal_safety.final_tx confirmations .Bitcoin = true
        ∧ lookupA rt.syncer_state.tasks.watched_txs id = some .Refund then
      let sy2 := rt.syncer_state.handle_tx_confs id (some confirmations) rt.temporal_safety.btc_finality_thr
      let rt := { rt with syncer_state := sy2 }
      let txs2 := removeA (removeA (removeA (removeA rt.txs .Cancel) .Refund) .Buy) .Punish
      let rt := { rt with txs := txs2 }
      .ok (some (.SwapEnd .FailureRefund), rt,
           [.SyncTaskXmr (.AbortTask .AllTasks), .SyncTaskBtc (.AbortTask .AllTasks)])
    else .ok (none, rt, [])
  | _ => .ok (none, rt, [])

/-- `try_bob_canceled_to_bob_cancel_final`: on Cancel finality (with no Buy
confirmations seen and the Refund available) Bob publishes Refund; when
`safe_refund` does not hold only a warning is logged and the broadcast still
proceeds. -/
def try_bob_canceled_to_bob_cancel_final (event : BusMsg) (rt : Runtime) :
    TransRes :=
  match event with
  | .Sync (.TransactionConfirmations id (some confirmations)) =>
    if rt.temporal_safety.final_tx confirmations .Bitcoin = true
        ∧ lookupA rt.syncer_state.tasks.watched_txs id = some .Cancel
        ∧ rt.syncer_state.buy_tx_confs = none
        ∧ containsA rt.txs .Refund = true then
      let sy2 := rt.syncer_state.handle_tx_confs id (some confirmations) rt.temporal_safety.btc_finality_thr
      let rt := { rt with syncer_state := sy2 }
      match removeEntryA rt.txs .Refund with
      | none => .error .panicUnwrap
      | some ((tx_label, refund_tx), rest) =>
        let rt := { rt with txs := rest }
        let pb := rt.broadcast refund_tx tx_label
        .ok (some .BobCancelFinal, pb.1, [pb.2])
    else .ok (none, rt, [])
  | _ => .ok (none, rt, [])

/-- `try_awaiting_sweep_to_swap_end`. -/
def try_awaiting_sweep_to_swap_end (event : BusMsg) (rt : Runtime) : TransRes :=
  match event with
  | .Sync (.TaskAborted ids) =>
    if ids.length = 1 ∧ rt.syncer_state.tasks.sweeping_addr = ids.head? then
      match handle_abort_swap rt with
      | .ok (st, rt, effs) =>
        .ok (st, rt, Effect.CtlFundingCanceled .Bitcoin :: effs)
      | e => e
    else .ok (none, rt, [])
  | .Sync (.SweepSuccess id) =>
    if rt.syncer_state.tasks.sweeping_addr = some id then
      match handle_abort_swap rt with
      | .ok (st, rt, effs) =>
        .ok (st, rt, Effect.CtlFundingCanceled .Bitcoin :: effs)
      | e => e
    else .ok (none, rt, [])
  | _ => .ok (none, rt, [])

/-- `try_alice_reveal_to_alice_core_arbitrating_setup`: watches the three
arbitrating transactions, stores Cancel and Punish, checkpoints Alice pre
lock, and sends the refund procedure signatures. -/
def try_alice_reveal_to_alice_core_arbitrating_setup (ops : WalletOps)
    (event : BusMsg) (rt : Runtime) (s : AliceReveal) : TransRes :=
  match event with
  | .P2p (.CoreArbitratingSetup setup) =>
    let p1 := watch_tx_btc_if_new rt setup.lock.txid .Lock
    let p2 := watch_tx_btc_if_new p1.1 setup.cancel.txid .Cancel
    let p3 := watch_tx_btc_if_new p2.1 setup.refund.txid .Refund
    let rt := p3.1
    let effs1 := p1.2
    let effs2 := p2.2
    let effs3 := p3.2
    match ops.handle_core_arbitrating_setup s.wallet setup with
    | none => .error .walletFailure
    | some (wallet, res) =>
      let txs2 := insertA (insertA rt.txs .Cancel res.cancel_tx) .Punish res.punish_tx
      let rt := { rt with txs := txs2 }
      let effs4 := match rt.syncer_state.lock_tx_confs with
        | some req => [Effect.ReplaySync req]
        | none => []
      let effs5 := match rt.syncer_state.cancel_tx_confs with
        | some req => [Effect.ReplaySync req]
        | none => []
      let new_ssm := SwapStateMachine.AliceCoreArbitratingSetup
        ⟨s.local_params, s.remote_params, wallet⟩
      .ok (some new_ssm, rt,
           effs1 ++ effs2 ++ effs3 ++ effs4 ++ effs5
             ++ [.Ckpt (some (.RefundProcedureSignatures res.refund_procedure_signatures)) new_ssm,
                 .Peer (.RefundProcedureSignatures res.refund_procedure_signatures)])
  | .Ctl .AbortSwap => handle_abort_swap rt
  | _ => .ok (none, rt, [])

/-- `try_alice_core_arbitrating_setup_to_alice_arbitrating_lock_final`. -/
def try_alice_core_arbitrating_setup_to_alice_arbitrating_lock_final
    (event : BusMsg) (rt : Runtime) (s : AliceCoreArbitratingSetup) : TransRes :=
  match event with
  | .Sync (.TransactionConfirmations id (some confirmations)) =>
    if rt.temporal_safety.final_tx confirmations .Bitcoin = true
        ∧ lookupA rt.syncer_state.tasks.watched_txs id = some .Lock then
      match s.local_params, s.remote_params with
      | .Alice alice_params, .Bob bob_params =>
        let sv := aggregate_xmr_spend_view alice_params bob_params
        let h := some (rt.syncer_state.height .Monero)
        let rt := match rt.monero_address_creation_height with
          | none => { rt with monero_address_creation_height := h }
          | some _ => rt
        let address := monero_address_from_viewpair sv.1 sv.2
        let amount := rt.syncer_state.monero_amount
        let funding_info : MoneroFundingInfo := ⟨rt.swap_id, address, amount⟩
        let p1 :=
          if rt.syncer_state.is_watched_addr .AccLock then (rt, [])
          else
            let tsy := rt.syncer_state.watch_addr_xmr sv.1 sv.2 .AccLock
              rt.monero_address_creation_height
            ({ rt with syncer_state := tsy.2 }, [Effect.SyncTaskXmr tsy.1])
        .ok (some (.AliceArbitratingLockFinal ⟨s.wallet, funding_info, amount⟩),
             p1.1, p1.2)
      | _, _ => .ok (none, rt, [])
    else handle_alice_swap_interrupt_afer_lock event rt s.wallet
  | _ => handle_alice_swap_interrupt_afer_lock event rt s.wallet

/-- `try_alice_arbitrating_lock_final_to_alice_accordant_lock`: Alice's
AccLock funding-amount policy.  Underfunding logs an error (and still
advances), overfunding goes to `AliceCanceled`, the exact amount advances to
`AliceAccordantLock`. -/
def try_alice_arbitrating_lock_final_to_alice_accordant_lock (event : BusMsg)
    (rt : Runtime) (s : AliceArbitratingLockFinal) : TransRes :=
  match event with
  | .Sync (.Empty id) =>
    if containsA rt.syncer_state.tasks.watched_addrs id = true
        ∧ lookupA rt.syncer_state.tasks.watched_addrs id = some .AccLock then
      let rt := { rt with syncer_state.awaiting_funding := true }
      let effs := match rt.enquirer with
        | some _ => [Effect.CtlFundingInfoXmr s.funding_info]
        | none => []
      .ok (some (.AliceArbitratingLockFinal s), rt, effs)
    else handle_alice_swap_interrupt_afer_lock event rt s.wallet
  | .Sync (.TransactionConfirmations id (some confirmations)) =>
    if rt.temporal_safety.final_tx confirmations .Bitcoin = true
        ∧ lookupA rt.syncer_state.tasks.watched_txs id = some .Lock
        ∧ rt.temporal_safety.stop_funding_before_cancel confirmations = true
        ∧ rt.syncer_state.awaiting_funding = true then
      let rt := { rt with syncer_state.awaiting_funding := false }
      .ok (some (.AliceArbitratingLockFinal s), rt, [.CtlFundingCanceled .Monero])
    else handle_alice_swap_interrupt_afer_lock event rt s.wallet
  | .Sync (.AddressTransaction id hash amount block tx) =>
    if containsA rt.syncer_state.tasks.watched_addrs id = true
        ∧ lookupA rt.syncer_state.tasks.watched_addrs id = some .AccLock then
      let p1 :=
        if rt.syncer_state.is_watched_tx .AccLock then (rt, [])
        else
          let tsy := rt.syncer_state.watch_tx_xmr hash .AccLock
          let rt := { rt with syncer_state := tsy.2 }
          if rt.syncer_state.awaiting_funding then
            ({ rt with syncer_state.awaiting_funding := false },
             [Effect.CtlFundingCompleted .Monero, Effect.SyncTaskXmr tsy.1])
          else (rt, [Effect.SyncTaskXmr tsy.1])
      let rt := p1.1
      let effs1 := p1.2
      let p2 :=
        if containsA rt.syncer_state.tasks.watched_addrs id then
          let wa2 := removeA rt.syncer_state.tasks.watched_addrs id
          ({ rt with syncer_state.tasks.watched_addrs := wa2 },
           [Effect.SyncTaskXmr (rt.syncer_state.abort_task id)])
        else (rt, [])
      let rt := p2.1
      let effs2 := p2.2
      if amount < s.required_funding_amount then
        .ok (some (.AliceAccordantLock ⟨s.wallet⟩), rt,
             effs1 ++ effs2
               ++ [.Progress "Too small amount funded. Do not fund this swap anymore, will attempt to refund."])
      else if s.required_funding_amount < amount then
        .ok (some (.AliceCanceled ⟨s.wallet⟩), rt,
             effs1 ++ effs2
               ++ [.Progress "Too big amount funded. Do not fund this swap anymore, will attempt to refund."])
      else .ok (some (.AliceAccordantLock ⟨s.wallet⟩), rt, effs1 ++ effs2)
    else handle_alice_swap_interrupt_afer_lock event rt s.wallet
  | _ => handle_alice_swap_interrupt_afer_lock event rt s.wallet

/-- `try_alice_accordant_lock_to_alice_buy_procedure_signature`: on the peer's
BuyProcedureSignature Alice broadcasts Buy, unless the memoized Lock
confirmations satisfy `valid_cancel`, in which case she broadcasts Cancel and
goes to `AliceCanceled`. -/
def try_alice_accordant_lock_to_alice_buy_procedure_signature (ops : WalletOps)
    (event : BusMsg) (rt : Runtime) (s : AliceAccordantLock) : TransRes :=
  match event with
  | .P2p (.BuyProcedureSignature buy_procedure_signature) =>
    let p1 := watch_tx_btc_if_new rt buy_procedure_signature.buy.txid .Buy
    let rt := p1.1
    let effs1 := p1.2
    match ops.handle_buy_procedure_signature s.wallet buy_procedure_signature with
    | none => .error .walletFailure
    | some (wallet, res) =>
      let txs2 := insertA (insertA rt.txs .Cancel res.cancel_tx) .Buy res.buy_tx
      let rt := { rt with txs := txs2 }
      let should_cancel := match rt.syncer_state.lock_tx_confs with
        | some ev =>
          match ev.confirmations with
          | some confirmations => rt.temporal_safety.valid_cancel confirmations
          | none => false
        | none => false
      if should_cancel then
        let pb := rt.broadcast res.cancel_tx .Cancel
        .ok (some (.AliceCanceled ⟨wallet⟩), pb.1, effs1 ++ [pb.2])
      else
        let pb := rt.broadcast res.buy_tx .Buy
        let new_ssm := SwapStateMachine.AliceBuyProcedureSignature
        .ok (some new_ssm, pb.1, effs1 ++ [pb.2, .Ckpt none new_ssm])
  | _ => handle_alice_swap_interrupt_afer_lock event rt s.wallet

/-- `try_alice_buy_procedure_signature_to_swap_end`. -/
def try_alice_buy_procedure_signature_to_swap_end (event : BusMsg)
    (rt : Runtime) : TransRes :=
  match event with
  | .Sync (.TransactionConfirmations id (some confirmations)) =>
    if rt.temporal_safety.final_tx confirmations .Bitcoin = true
        ∧ lookupA rt.syncer_state.tasks.watched_txs id = some .Buy then
      let sy2 := rt.syncer_state.handle_tx_confs id (some confirmations) rt.temporal_safety.btc_finality_thr
      let rt := { rt with syncer_state := sy2 }
      let rt := { rt with txs := removeA (removeA rt.txs .Cancel) .Punish }
      .ok (some (.SwapEnd .SuccessSwap), rt,
           [.SyncTaskXmr (.AbortTask .AllTasks), .SyncTaskBtc (.AbortTask .AllTasks)])
    else .ok (none, rt, [])
  | _ => .ok (none, rt, [])

/-- `try_alice_canceled_to_alice_refund_or_alice_punish`: retrieves Refund
when its txid is known, or publishes Punish when the Cancel confirmations
reach the punish timelock and the Punish transaction is available. -/
def try_alice_canceled_to_alice_refund_or_alice_punish (ops : WalletOps)
    (event : BusMsg) (rt : Runtime) (s : AliceCanceled) : TransRes :=
  match event with
  | .Sync (.TransactionConfirmations id (some confirmations)) =>
    if rt.temporal_safety.final_tx confirmations .Bitcoin = true then
      match lookupA rt.syncer_state.tasks.watched_txs id with
      | some .Refund =>
        if containsA rt.syncer_state.tasks.txids .Refund then
          match removeEntryA rt.syncer_state.tasks.txids .Refund with
          | none => .error .panicUnwrap
          | some ((txlabel, txid), rest) =>
            let rt := { rt with syncer_state.tasks.txids := rest }
            let tsy := rt.syncer_state.retrieve_tx_btc txid txlabel
            .ok (some (.AliceCanceled ⟨s.wallet⟩),
                 { rt with syncer_state := tsy.2 }, [.SyncTaskBtc tsy.1])
        else .ok (none, rt, [])
      | some .Cancel =>
        if rt.temporal_safety.valid_punish confirmations = true
            ∧ containsA rt.txs .Punish = true then
          match removeEntryA rt.txs .Punish with
          | none => .error .panicUnwrap
          | some ((tx_label, punish_tx), rest) =>
            let rt := { rt with txs := rest }
            let p1 := watch_tx_btc_if_new rt punish_tx.txid tx_label
            let pb := p1.1.broadcast punish_tx tx_label
            .ok (some .AlicePunish, pb.1, p1.2 ++ [pb.2])
        else .ok (none, rt, [])
      | _ => .ok (none, rt, [])
    else .ok (none, rt, [])
  | .Sync (.TransactionRetrieved id (some tx)) =>
    match lookupA rt.syncer_state.tasks.retrieving_txs id with
    | some (TxLabel.Refund, _) =>
      match removeEntryA rt.syncer_state.tasks.retrieving_txs id with
      | none => .error .panicUnwrap
      | some ((_, (txlabel, _)), rest) =>
        let rt := { rt with syncer_state.tasks.retrieving_txs := rest }
        match ops.process_refund_tx s.wallet tx with
        | none => .error .walletFailure
        | some sweep_xmr =>
          if (lookupA rt.syncer_state.confirmations .AccLock).isSome then
            let tsy := rt.syncer_state.sweep_xmr sweep_xmr true
            let rt := { rt with syncer_state := tsy.2 }
            match tsy.1 with
            | .SweepAddress sweep_address =>
              .ok (some (.AliceRefund sweep_address), rt, [])
            | _ => .ok (none, rt, [])
          else
            let p1 :=
              if rt.syncer_state.awaiting_funding then
                ({ rt with syncer_state.awaiting_funding := false },
                 [Effect.CtlFundingCompleted .Monero])
              else (rt, [])
            let rt := p1.1
            let txs2 := removeA (removeA (removeA (removeA rt.txs .Cancel) .Refund) .Buy) .Punish
            let rt := { rt with txs := txs2 }
            .ok (some (.SwapEnd .FailureRefund), rt,
                 p1.2 ++ [.SyncTaskXmr (.AbortTask .AllTasks),
                          .SyncTaskBtc (.AbortTask .AllTasks)])
    | _ => .ok (none, rt, [])
  | _ => .ok (none, rt, [])

/-- `try_alice_refund_to_alice_refund_sweeping`. -/
def try_alice_refund_to_alice_refund_sweeping (event : BusMsg) (rt : Runtime)
    (sweep_address : SweepAddressTask) : TransRes :=
  match event with
  | .Sync (.TransactionConfirmations id (some confirmations)) =>
    if rt.temporal_safety.sweep_monero_thr ≤ confirmations then
      .ok (some .AliceRefundSweeping, rt, [.SyncTaskXmr (.SweepAddress sweep_address)])
    else .ok (none, rt, [])
  | _ => .ok (none, rt, [])

/-- `try_alice_refund_sweeping_to_swap_end`. -/
def try_alice_refund_sweeping_to_swap_end (event : BusMsg) (rt : Runtime) :
    TransRes :=
  match event with
  | .Sync (.SweepSuccess id) =>
    if rt.syncer_state.tasks.sweeping_addr = some id then
      let p1 :=
        if rt.syncer_state.awaiting_funding then
          ({ rt with syncer_state.awaiting_funding := false },
           [Effect.CtlFundingCompleted .Monero])
        else (rt, [])
      let rt := p1.1
      let txs2 := removeA (removeA (removeA (removeA rt.txs .Cancel) .Refund) .Buy) .Punish
      let rt := { rt with txs := txs2 }
      .ok (some (.SwapEnd .FailureRefund), rt,
           p1.2 ++ [.SyncTaskXmr (.AbortTask .AllTasks),
                    .SyncTaskBtc (.AbortTask .AllTasks)])
    else .ok (none, rt, [])
  | _ => .ok (none, rt, [])

/-- `try_alice_punish_to_swap_end`. -/
def try_alice_punish_to_swap_end (event : BusMsg) (rt : Runtime) : TransRes :=
  match event with
  | .Sync (.TransactionConfirmations id confirmations) =>
    if lookupA rt.syncer_state.tasks.watched_txs id = some .Punish then
      let txs2 := removeA (removeA (removeA (removeA rt.txs .Cancel) .Refund) .Buy) .Punish
      let rt := { rt with txs := txs2 }
      .ok (some (.SwapEnd .FailurePunish), rt,
           [.SyncTaskXmr (.AbortTask .AllTasks), .SyncTaskBtc (.AbortTask .AllTasks)])
    else .ok (none, rt, [])
  | _ => .ok (none, rt, [])

/-- `try_bob_buy_sweeping_to_swap_end`. -/
def try_bob_buy_sweeping_to_swap_end (event : BusMsg) (rt : Runtime) : TransRes :=
  match event with
  | .Sync (.SweepSuccess id) =>
    if rt.syncer_state.tasks.sweeping_addr = some id then
      let p1 :=
        if rt.syncer_state.awaiting_funding then
          ({ rt with syncer_state.awaiting_funding := false },
           [Effect.CtlFundingCompleted .Bitcoin])
        else (rt, [])
      let rt := p1.1
      let txs2 := removeA (removeA (removeA (removeA rt.txs .Cancel) .Refund) .Buy) .Punish
      let rt := { rt with txs := txs2 }
      .ok (some (.SwapEnd .SuccessSwap), rt,
           p1.2 ++ [.SyncTaskXmr (.AbortTask .AllTasks),
                    .SyncTaskBtc (.AbortTask .AllTasks)])
    else .ok (none, rt, [])
  | _ => .ok (none, rt, [])

/-- `SwapStateMachine::next` — one step of the swap state machine; `none`
means the event was ignored and the machine stays in place. -/
def SwapStateMachine.next (ops : WalletOps) (sm : SwapStateMachine)
    (event : BusMsg) (rt : Runtime) : TransRes :=
  match sm with
  | .StartTaker swap_role => attempt_transition_to_init_taker ops event rt swap_role
  | .StartMaker swap_role => attempt_transition_to_init_maker ops event rt swap_role
  | .BobInitTaker s => try_bob_init_taker_to_bob_taker_maker_commit ops event rt s
  | .AliceInitTaker s => try_alice_init_taker_to_alice_taker_maker_commit ops event rt s
  | .BobTakerMakerCommit s => try_bob_taker_maker_commit_to_bob_reveal ops event rt s
  | .AliceTakerMakerCommit s => try_alice_taker_maker_commit_to_alice_reveal ops event rt s
  | .BobInitMaker s => try_bob_init_maker_to_bob_reveal ops event rt s
  | .AliceInitMaker s => try_alice_init_maker_to_alice_reveal ops event rt s
  | .BobReveal s => try_bob_reveal_to_bob_funded ops event rt s
  | .BobFunded s => try_bob_funded_to_bob_refund_procedure_signature ops event rt s
  | .BobRefundProcedureSignatures s =>
    try_bob_refund_procedure_signatures_to_bob_accordant_lock event rt s
  | .BobAccordantLock s => try_bob_accordant_lock_to_bob_accordant_lock_final event rt s
  | .BobAccordantLockFinal s => try_bob_accordant_lock_final_to_bob_buy_final ops event rt s
  | .BobBuyFinal task => try_bob_buy_final_to_bob_buy_sweeping event rt task
  | .BobBuySweeping => try_bob_buy_sweeping_to_swap_end event rt
  | .BobCanceled => try_bob_canceled_to_bob_cancel_final event rt
  | .BobCancelFinal => try_bob_cancel_final_to_swap_end event rt
  | .BobAbortAwaitingBitcoinSweep => try_awaiting_sweep_to_swap_end event rt
  | .AliceReveal s => try_alice_reveal_to_alice_core_arbitrating_setup ops event rt s
  | .AliceCoreArbitratingSetup s =>
    try_alice_core_arbitrating_setup_to_alice_arbitrating_lock_final event rt s
  | .AliceArbitratingLockFinal s =>
    try_alice_arbitrating_lock_final_to_alice_accordant_lock event rt s
  | .AliceAccordantLock s =>
    try_alice_accordant_lock_to_alice_buy_procedure_signature ops event rt s
  | .AliceBuyProcedureSignature => try_alice_buy_procedure_signature_to_swap_end event rt
  | .AliceCanceled s => try_alice_canceled_to_alice_refund_or_alice_punish ops event rt s
  | .AliceRefund sweep_address => try_alice_refund_to_alice_refund_sweeping event rt sweep_address
  | .AliceRefundSweeping => try_alice_refund_sweeping_to_swap_end event rt
  | .AlicePunish => try_alice_punish_to_swap_end event rt
  | .SwapEnd o => .ok (some (.SwapEnd o), rt, [])

/-! ## Projections used by the claim statements -/

/-- Successor state of a step, `none` on error. -/
def resultState : TransRes → Option (Option SwapStateMachine)
  | .ok (st, _, _) => some st
  | .error _ => none

/-- Effects emitted by a step (empty on error: nothing was sent). -/
def resultEffects : TransRes → List Effect
  | .ok (_, _, effs) => effs
  | .error _ => []

/-- Whether the effect list contains a broadcast of the given label. -/
def containsBroadcast (label : TxLabel) (effs : List Effect) : Bool :=
  effs.any fun e =>
    match e with
    | .Broadcast l _ => l = label
    | _ => false

/-- No Buy and no Punish broadcast among a step's effects (used by C1). -/
def noBuyPunish (res : TransRes) : Prop :=
  containsBroadcast .Buy (resultEffects res) = false
  ∧ containsBroadcast .Punish (resultEffects res) = false

/-! ## Checkpoint codec (runtime.rs, `CheckpointSwapd` strict encoding)

The composition below is translated from the hand-written
`StrictEncode`/`StrictDecode` impls at runtime.rs 262-367.  The leaf codecs
(for the state, the last message, service ids, the temporal safety value,
transactions, txids, pending requests, and the `usize` length prefix) come
from external crates and are passed in as parameters. -/

/-- Decoder errors (`strict_encoding::Error`, restricted to what the impl
produces). -/
inductive DecErr
  | repeatedValue
  | dataIntegrity
  | eof
  deriving DecidableEq, Repr

/-- A byte codec for an opaque leaf type. -/
structure Codec (α : Type) where
  enc : α → List Nat
  dec : List Nat → Except DecErr (α × List Nat)

/-- A lossless prefix codec: decoding the encoding consumes exactly it. -/
def Codec.RoundTrip {α : Type} (c : Codec α) : Prop :=
  ∀ (a : α) (rest : List Nat), c.dec (c.enc a ++ rest) = .ok (a, rest)

/-- `Option::strict_encode`: a 0/1 tag byte, then the payload. -/
def encOpt {α : Type} (c : Codec α) : Option α → List Nat
  | none => [0]
  | some a => 1 :: c.enc a

def decOpt {α : Type} (c : Codec α) : List Nat → Except DecErr (Option α × List Nat)
  | 0 :: rest => .ok (none, rest)
  | 1 :: rest =>
    match c.dec rest with
    | .ok (a, r) => .ok (some a, r)
    | .error e => .error e
  | _ => .error .dataIntegrity

/-- `Vec::strict_encode`: length prefix, then the items in order. -/
def encSeq {α : Type} (cLen : Codec Nat) (c : Codec α) (l : List α) : List Nat :=
  cLen.enc l.length ++ (l.map c.enc).flatten

def decSeqLoop {α : Type} (c : Codec α) :
    Nat → List Nat → Except DecErr (List α × List Nat)
  | 0, bs => .ok ([], bs)
  | n + 1, bs =>
    match c.dec bs with
    | .error e => .error e
    | .ok (a, bs1) =>
      match decSeqLoop c n bs1 with
      | .error e => .error e
      | .ok (tl, bs2) => .ok (a :: tl, bs2)

def decSeq {α : Type} (cLen : Codec Nat) (c : Codec α) (bs : List Nat) :
    Except DecErr (List α × List Nat) :=
  match cLen.dec bs with
  | .error e => .error e
  | .ok (n, bs1) => decSeqLoop c n bs1

def seqCodec {α : Type} (cLen : Codec Nat) (c : Codec α) : Codec (List α) :=
  ⟨encSeq cLen c, decSeq cLen c⟩

/-- The encoding of one map section (runtime.rs 269-315): the length, then
each key-value pair in iteration order. -/
def encMap {κ ν : Type} (cLen : Codec Nat) (ck : Codec κ) (cv : Codec ν)
    (l : List (κ × ν)) : List Nat :=
  cLen.enc l.length ++ (l.map fun kv => ck.enc kv.1 ++ cv.enc kv.2).flatten

/-- The decoding loop of one map section (runtime.rs 325-355): read a pair,
refuse a key already present with `RepeatedValue`, insert, repeat. -/
def decMapLoop {κ ν : Type} [DecidableEq κ] (ck : Codec κ) (cv : Codec ν) :
    Nat → List (κ × ν) → List Nat → Except DecErr (List (κ × ν) × List Nat)
  | 0, acc, bs => .ok (acc, bs)
  | n + 1, acc, bs =>
    match ck.dec bs with
    | .error e => .error e
    | .ok (k, bs1) =>
      match cv.dec bs1 with
      | .error e => .error e
      | .ok (v, bs2) =>
        if containsA acc k then .error .repeatedValue
        else decMapLoop ck cv n (acc ++ [(k, v)]) bs2

def decMap {κ ν : Type} [DecidableEq κ] (cLen : Codec Nat) (ck : Codec κ)
    (cv : Codec ν) (bs : List Nat) : Except DecErr (List (κ × ν) × List Nat) :=
  match cLen.dec bs with
  | .error e => .error e
  | .ok (n, bs1) => decMapLoop ck cv n [] bs1

/-- `CheckpointSwapd` (runtime.rs 250-260): the persisted projection of a
swap.  Component types are opaque parameters; the two tx maps are keyed by
`TxLabel` and the pending-requests map by the service id type `Sid`. -/
structure CheckpointSwapd (St Ms Sid Ts Tx Txid Pr : Type) where
  state : St
  last_msg : Ms
  enquirer : Option Sid
  temporal_safety : Ts
  txs : List (TxLabel × Tx)
  txids : List (TxLabel × Txid)
  pending_requests : List (Sid × List Pr)

/-- `CheckpointSwapd::strict_encode` (runtime.rs 262-316). -/
def CheckpointSwapd.strict_encode {St Ms Sid Ts Tx Txid Pr : Type}
    (cLen : Codec Nat) (cSt : Codec St) (cMs : Codec Ms) (cSid : Codec Sid)
    (cTs : Codec Ts) (cLabel : Codec TxLabel) (cTx : Codec Tx)
    (cTxid : Codec Txid) (cPr : Codec Pr)
    (s : CheckpointSwapd St Ms Sid Ts Tx Txid Pr) : List Nat :=
  cSt.enc s.state ++ cMs.enc s.last_msg ++ encOpt cSid s.enquirer
    ++ cTs.enc s.temporal_safety
    ++ encMap cLen cLabel cTx s.txs
    ++ encMap cLen cLabel cTxid s.txids
    ++ encMap cLen cSid (seqCodec cLen cPr) s.pending_requests

/-- `CheckpointSwapd::strict_decode` (runtime.rs 318-367), including the
`RepeatedValue` checks on the three map sections. -/
def CheckpointSwapd.strict_decode {St Ms Sid Ts Tx Txid Pr : Type}
    [DecidableEq Sid]
    (cLen : Codec Nat) (cSt : Codec St) (cMs : Codec Ms) (cSid : Codec Sid)
    (cTs : Codec Ts) (cLabel : Codec TxLabel) (cTx : Codec Tx)
    (cTxid : Codec Txid) (cPr : Codec Pr) (bs : List Nat) :
    Except DecErr (CheckpointSwapd St Ms Sid Ts Tx Txid Pr × List Nat) :=
  match cSt.dec bs with
  | .error e => .error e
  | .ok (state, bs) =>
    match cMs.dec bs with
    | .error e => .error e
    | .ok (last_msg, bs) =>
      match decOpt cSid bs with
      | .error e => .error e
      | .ok (enquirer, bs) =>
        match cTs.dec bs with
        | .error e => .error e
        | .ok (temporal_safety, bs) =>
          match decMap cLen cLabel cTx bs with
          | .error e => .error e
          | .ok (txs, bs) =>
            match decMap cLen cLabel cTxid bs with
            | .error e => .error e
            | .ok (txids, bs) =>
              match decMap cLen cSid (seqCodec cLen cPr) bs with
              | .error e => .error e
              | .ok (pending_requests, bs) =>
                .ok (⟨state, last_msg, enquirer, temporal_safety, txs, txids,
                      pending_requests⟩, bs)

/-! ## Multipart chunking (runtime.rs `checkpoint_state` and the
`CheckpointMultipartChunk` reassembly) -/

/-- `slice::chunks(m)` with explicit fuel. -/
def chunksOfAux {α : Type} (m : Nat) : Nat → List α → List (List α)
  | 0, _ => []
  | _, [] => []
  | fuel + 1, l => l.take m :: chunksOfAux m fuel (l.drop m)

/-- `slice::chunks(m)`: consecutive chunks of `m` elements, the last one
possibly shorter. -/
def chunksOf {α : Type} (m : Nat) (l : List α) : List (List α) :=
  chunksOfAux m l.length l

/-- `CheckpointChunk`: an accumulated chunk awaiting reassembly. -/
structure CheckpointChunk where
  msg_index : Nat
  serialized_state_chunk : List Nat
  deriving DecidableEq, Repr

/-- `CheckpointMultipartChunk` (the wire form). -/
structure CheckpointMultipartChunk where
  checksum : Nat
  msg_index : Nat
  msgs_total : Nat
  serialized_state_chunk : List Nat
  swap_id : Nat
  deriving DecidableEq, Repr

/-- `checkpoint_state` (runtime.rs 2432-2486), chunking branch: enumerate the
chunks of the serialized state and attach to each one the checksum of the
whole payload, its index, and the total count.  The 20-byte RIPEMD160 hash is
a parameter (external crate). -/
def checkpoint_chunks (h : List Nat → Nat) (max_chunk_size : Nat)
    (serialized_state : List Nat) (swap_id : Nat) :
    List CheckpointMultipartChunk :=
  let checksum := h serialized_state
  let chunks := (chunksOf max_chunk_size serialized_state).enum
  let chunks_total := chunks.length
  chunks.map fun nc => ⟨checksum, nc.1, chunks_total, nc.2, swap_id⟩

/-- Insertion step of the reassembly sort. -/
def insertByIdx (a : Nat × List Nat) :
    List (Nat × List Nat) → List (Nat × List Nat)
  | [] => [a]
  | b :: t => if a.1 ≤ b.1 then a :: b :: t else b :: insertByIdx a t

/-- `sort_by` on the message index (runtime.rs 2190-2192), as an insertion
sort. -/
def sortByIdx : List (Nat × List Nat) → List (Nat × List Nat)
  | [] => []
  | a :: t => insertByIdx a (sortByIdx t)

/-- Reassembly (`handle_rpc_ctl`, runtime.rs 2185-2203): sort the accumulated
chunks by message index, concatenate, and verify the checksum; a mismatch
refuses the restore. -/
def reassemble (h : List Nat → Nat) (checksum : Nat)
    (received : List CheckpointChunk) : Option (List Nat) :=
  let sorted := sortByIdx
    (received.map fun c => (c.msg_index, c.serialized_state_chunk))
  let serialized := (sorted.map Prod.snd).flatten
  if h serialized = checksum then some serialized else none

/-! ## Concrete leaf codecs for witnesses -/

/-- A total stand-in codec for opaque `Nat`-valued leaves and for the length
prefix (the real codecs live in external crates): unary, trivially lossless. -/
def encNatUnary (n : Nat) : List Nat := List.replicate n 1 ++ [0]

def decNatUnary : List Nat → Except DecErr (Nat × List Nat)
  | [] => .error .eof
  | 0 :: rest => .ok (0, rest)
  | (_ + 1) :: rest =>
    match decNatUnary rest with
    | .ok (n, r) => .ok (n + 1, r)
    | .error e => .error e

def natCodecUnary : Codec Nat := ⟨encNatUnary, decNatUnary⟩

def TxLabel.toByte : TxLabel → Nat
  | .Funding => 0
  | .Lock => 1
  | .Cancel => 2
  | .Refund => 3
  | .Buy => 4
  | .Punish => 5
  | .AccLock => 6

def TxLabel.ofByte : Nat → Option TxLabel
  | 0 => some .Funding
  | 1 => some .Lock
  | 2 => some .Cancel
  | 3 => some .Refund
  | 4 => some .Buy
  | 5 => some .Punish
  | 6 => some .AccLock
  | _ => none

/-- A single-byte stand-in codec for `TxLabel` (the real codec is external). -/
def labelCodec : Codec TxLabel :=
  ⟨fun l => [l.toByte],
   fun bs =>
     match bs with
     | [] => .error .eof
     | b :: rest =>
       match TxLabel.ofByte b with
       | some l => .ok (l, rest)
       | none => .error .dataIntegrity⟩

/-! ## Concrete fixtures for witnesses and counterexamples -/

/-- A temporal-safety configuration satisfying `valid_params`:
cancel 10, punish 20, finality 1/1, sweep threshold 10, race 3. -/
def fixTs : TemporalSafety := ⟨10, 20, 1, 1, 10, 3⟩

def fixSyncer0 : SyncerState :=
  { tasks := ⟨5, [(1, .AccLock)], [(0, .Lock)], [], none, [], []⟩
    bitcoin_height := 100
    monero_height := 200
    btc_fee_estimate_sat_per_kvb := some 1
    lock_tx_confs := none
    cancel_tx_confs := none
    buy_tx_confs := none
    confirmations := []
    monero_amount := 100
    bitcoin_amount := 500
    awaiting_funding := true }

def fixRt0 : Runtime :=
  { swap_id := 7, identity_swap_id := 7, peer_service := 1, connected := true
    enquirer := some 9, syncer_state := fixSyncer0, temporal_safety := fixTs
    txs := [], monero_address_creation_height := none }

def fixAlf : AliceArbitratingLockFinal := ⟨42, ⟨7, 55, 100⟩, 100⟩

/-- Wallet oracle whose fallible calls all fail (the base fixture). -/
def fixOpsNone : WalletOps :=
  { new_taker := fun _ => none
    new_maker := fun _ => none
    local_params := fun _ => .Alice ⟨0, 0⟩
    funding_address := fun _ => none
    taker_commit := fun _ => none
    maker_commit := fun _ _ => none
    validate_reveal := fun _ _ => none
    handle_maker_commit := fun _ _ => none
    handle_bob_reveals := fun _ _ => none
    process_funding_tx := fun _ _ => none
    handle_alice_reveals := fun _ _ => none
    handle_refund_procedure_signatures := fun _ _ => none
    handle_core_arbitrating_setup := fun _ _ => none
    handle_buy_procedure_signature := fun _ _ => none
    process_buy_tx := fun _ _ => none
    process_refund_tx := fun _ _ => none
    process_get_sweep_bitcoin_address := fun _ _ => none }

/-- Oracle producing a buy-procedure-signature result. -/
def fixOpsBuy : WalletOps :=
  { fixOpsNone with
    handle_buy_procedure_signature := fun w _ => some (w, ⟨⟨201⟩, ⟨202⟩⟩) }

/-- Oracle for Bob's funding and abort paths. -/
def fixOpsFund : WalletOps :=
  { fixOpsNone with
    process_funding_tx := fun w _ => some w
    handle_alice_reveals := fun w _ => some (w, some 5, ⟨⟨301⟩, ⟨302⟩, ⟨303⟩⟩)
    process_get_sweep_bitcoin_address := fun _ a => some ⟨a, 999⟩ }

/-- Oracle validating any reveal. -/
def fixOpsVal : WalletOps :=
  { fixOpsNone with validate_reveal := fun r c => some (.Alice ⟨r, c⟩) }

def fixSyncer1 : SyncerState := { fixSyncer0 with lock_tx_confs := some ⟨0, some 9⟩ }
def fixRt1 : Runtime := { fixRt0 with syncer_state := fixSyncer1 }

def fixSyncer4 : SyncerState :=
  { fixSyncer0 with tasks := ⟨5, [], [(2, .Cancel)], [], none, [], []⟩ }
def fixRt4 : Runtime :=
  { fixRt0 with syncer_state := fixSyncer4, txs := [(.Refund, ⟨88⟩)] }

def fixSyncerB : SyncerState :=
  { fixSyncer0 with tasks := ⟨5, [(1, .Funding)], [], [], none, [], []⟩ }
def fixRtB : Runtime := { fixRt0 with syncer_state := fixSyncerB }
def fixBobR : BobReveal := ⟨.Bob ⟨1, 2⟩, 700, 44, .Alice ⟨3, 4⟩, 42, 11⟩

def fixSyncerP : SyncerState :=
  { fixSyncer0 with tasks := ⟨5, [], [(2, .Cancel)], [], none, [], []⟩ }
def fixRtP : Runtime :=
  { fixRt0 with syncer_state := fixSyncerP, txs := [(.Punish, ⟨90⟩)] }

def fixSyncerF : SyncerState :=
  { fixSyncer0 with btc_fee_estimate_sat_per_kvb := none
                    tasks := ⟨5, [], [], [], none, [], []⟩ }
def fixRtF : Runtime := { fixRt0 with syncer_state := fixSyncerF }
def fixSyncerF2 : SyncerState :=
  { fixSyncerF with btc_fee_estimate_sat_per_kvb := some 8 }
def fixRtF2 : Runtime := { fixRt0 with syncer_state := fixSyncerF2 }
def fixBim : BobInitMaker := ⟨100, .Bob ⟨1, 2⟩, 44, 101, 42, none⟩
def fixBim2 : BobInitMaker := ⟨100, .Bob ⟨1, 2⟩, 44, 101, 42, some 33⟩

/-- Whether a bus message is a peer Reveal. -/
def isRevealEvent : BusMsg → Bool
  | .P2p (.Reveal _) => true
  | _ => false

/-- Whether a machine state is terminal. -/
def SwapStateMachine.isEnd : SwapStateMachine → Bool
  | .SwapEnd _ => true
  | _ => false

/-- Modelled from the spec: the dispatcher applies `next`, keeps the current
state on an error or an ignored event, and emits `SwapOutcome(o)` exactly when
the machine moves into `SwapEnd(o)` from a non-terminal state ("A terminal
state always emits `SwapOutcome`"; §8.5 "emitted exactly once"). -/
def dispatchStep (ops : WalletOps) (st : SwapStateMachine × Runtime)
    (event : BusMsg) : (SwapStateMachine × Runtime) × List Outcome :=
  match SwapStateMachine.next ops st.1 event st.2 with
  | .error _ => (st, [])
  | .ok (none, rt, _) => ((st.1, rt), [])
  | .ok (some sm2, rt, _) =>
    match sm2 with
    | .SwapEnd o => if st.1.isEnd then ((sm2, rt), []) else ((sm2, rt), [o])
    | _ => ((sm2, rt), [])

/-- Run the dispatcher over a sequence of events, collecting the emitted
`SwapOutcome`s. -/
def runMachine (ops : WalletOps) (st : SwapStateMachine × Runtime) :
    List BusMsg → (SwapStateMachine × Runtime) × List Outcome
  | [] => (st, [])
  | e :: es =>
    let s1 := dispatchStep ops st e
    let s2 := runMachine ops s1.1 es
    (s2.1, s1.2 ++ s2.2)

/-- Fixture for the C8 witness: a Buy confirmation watch under task id 3. -/
def fixSyncerC8 : SyncerState :=
  { fixSyncer0 with tasks := ⟨5, [], [(3, .Buy)], [], none, [], []⟩ }

/-- Fixture runtime for the C8 witness. -/
def fixRtC8 : Runtime := { fixRt0 with syncer_state := fixSyncerC8 }

/-! ## Helper lemmas on association lists -/

theorem lookupA_isSome_of_containsA {κ ν : Type} [DecidableEq κ]
    (l : List (κ × ν)) (k : κ) (h : containsA l k = true) :
    ∃ v, lookupA l k = some v := by
  induction l with
  | nil => simp [containsA] at h
  | cons kv t ih =>
    by_cases hk : kv.1 = k
    · exact ⟨kv.2, by simp [lookupA, hk]⟩
    · simp only [containsA, if_neg hk] at h
      simpa [lookupA, hk] using ih h

theorem containsA_eq_true_iff {κ ν : Type} [DecidableEq κ]
    (l : List (κ × ν)) (k : κ) :
    containsA l k = true ↔ k ∈ l.map Prod.fst := by
  induction l with
  | nil => simp [containsA]
  | cons kv t ih =>
    by_cases hk : kv.1 = k
    · simp [containsA, hk]
    · simp [containsA, hk, ih, Ne.symm hk]

/-! ## Claim C3: Alice's AccLock funding-amount policy -/

/-- C3 (amended): in `AliceArbitratingLockFinal`, an AccLock
`AddressTransaction` with amount strictly above the required funding amount
moves Alice to `AliceCanceled`; any other amount — the exact amount but also
a strictly smaller one — moves her to `AliceAccordantLock`, the underfunded
case additionally reporting the "Too small amount funded" error.  (The
original claim's "keeps waiting" on underfunding does not hold: the state
advances.) -/
theorem C3_alice_acclock_policy : ∀ (rt : Runtime) (s : AliceArbitratingLockFinal)
    (id hash amount block : Nat) (tx : BitcoinTx),
    containsA rt.syncer_state.tasks.watched_addrs id = true →
    lookupA rt.syncer_state.tasks.watched_addrs id = some .AccLock →
    resultState (try_alice_arbitrating_lock_final_to_alice_accordant_lock
        (.Sync (.AddressTransaction id hash amount block tx)) rt s)
      = some (some (if s.required_funding_amount < amount
                    then .AliceCanceled ⟨s.wallet⟩
                    else .AliceAccordantLock ⟨s.wallet⟩))
    ∧ (amount < s.required_funding_amount →
        Effect.Progress "Too small amount funded. Do not fund this swap anymore, will attempt to refund."
          ∈ resultEffects (try_alice_arbitrating_lock_final_to_alice_accordant_lock
              (.Sync (.AddressTransaction id hash amount block tx)) rt s)) := by
  intro rt s id hash amount block tx h1 h2
  rw [try_alice_arbitrating_lock_final_to_alice_accordant_lock]
  rw [if_pos ⟨h1, h2⟩]
  by_cases hlt : amount < s.required_funding_amount
  · have hgt : ¬ s.required_funding_amount < amount := by omega
    simp only [if_pos hlt, if_neg hgt]
    constructor
    · repeat' split
      all_goals rfl
    · intro _
      repeat' split
      all_goals simp [resultEffects]
  · by_cases hgt : s.required_funding_amount < amount
    · simp only [if_neg hlt, if_pos hgt]
      constructor
      · repeat' split
        all_goals rfl
      · intro hc; omega
    · simp only [if_neg hlt, if_neg hgt]
      constructor
      · repeat' split
        all_goals rfl
      · intro hc; omega

/-- C3 counterexample: an underfunded AccLock transaction (99 < 100) does
not keep Alice waiting in `AliceArbitratingLockFinal`; she advances to
`AliceAccordantLock`. -/
theorem C3_alice_acclock_policy_counterexample :
    (99 : Nat) < fixAlf.required_funding_amount
    ∧ resultState (try_alice_arbitrating_lock_final_to_alice_accordant_lock
        (.Sync (.AddressTransaction 1 77 99 0 ⟨123⟩)) fixRt0 fixAlf)
      = some (some (.AliceAccordantLock ⟨42⟩))
    ∧ resultState (try_alice_arbitrating_lock_final_to_alice_accordant_lock
        (.Sync (.AddressTransaction 1 77 99 0 ⟨123⟩)) fixRt0 fixAlf)
      ≠ some (some (.AliceArbitratingLockFinal fixAlf)) := by
  refine ⟨by decide, by decide, by decide⟩

/-- C3 witness: the amended policy applied at a concrete overfunded input. -/
theorem C3_alice_acclock_policy_witness :
    resultState (try_alice_arbitrating_lock_final_to_alice_accordant_lock
        (.Sync (.AddressTransaction 1 77 101 0 ⟨123⟩)) fixRt0 fixAlf)
      = some (some (.AliceCanceled ⟨42⟩)) := by
  have h := C3_alice_acclock_policy fixRt0 fixAlf 1 77 101 0 ⟨123⟩
    (by decide) (by decide)
  simpa using h.1

/-! ## Claim C4: Bob's Refund broadcast condition -/

/-- C4 (amended): in `BobCanceled`, Bob broadcasts Refund exactly when the
Cancel transaction reaches Bitcoin finality, no Buy confirmation has been
seen, and the Refund transaction is available — `safe_refund` is NOT part of
the guard; when it fails only a warning is logged and the broadcast proceeds.
The machine then moves to `BobCancelFinal`. -/
theorem C4_bob_refund_broadcast : ∀ (event : BusMsg) (rt : Runtime),
    (containsBroadcast .Refund
        (resultEffects (try_bob_canceled_to_bob_cancel_final event rt)) = true
      ↔ ∃ id c, event = .Sync (.TransactionConfirmations id (some c))
          ∧ rt.temporal_safety.final_tx c .Bitcoin = true
          ∧ lookupA rt.syncer_state.tasks.watched_txs id = some .Cancel
          ∧ rt.syncer_state.buy_tx_confs = none
          ∧ containsA rt.txs .Refund = true)
    ∧ (containsBroadcast .Refund
        (resultEffects (try_bob_canceled_to_bob_cancel_final event rt)) = true →
        resultState (try_bob_canceled_to_bob_cancel_final event rt)
          = some (some .BobCancelFinal)) := by
  intro event rt
  have main : containsBroadcast .Refund
      (resultEffects (try_bob_canceled_to_bob_cancel_final event rt)) = true
      ↔ ∃ id c, event = .Sync (.TransactionConfirmations id (some c))
        ∧ rt.temporal_safety.final_tx c .Bitcoin = true
        ∧ lookupA rt.syncer_state.tasks.watched_txs id = some .Cancel
        ∧ rt.syncer_state.buy_tx_confs = none
        ∧ containsA rt.txs .Refund = true := by
    constructor
    · intro h
      unfold try_bob_canceled_to_bob_cancel_final at h
      split at h
      · rename_i id c
        refine ⟨id, c, rfl, ?_⟩
        by_cases hg : rt.temporal_safety.final_tx c .Bitcoin = true
            ∧ lookupA rt.syncer_state.tasks.watched_txs id = some .Cancel
            ∧ rt.syncer_state.buy_tx_confs = none
            ∧ containsA rt.txs .Refund = true
        · exact hg
        · rw [if_neg hg] at h
          simp [resultEffects, containsBroadcast] at h
      · simp [resultEffects, containsBroadcast] at h
    · rintro ⟨id, c, rfl, hf, hl, hb, hr⟩
      unfold try_bob_canceled_to_bob_cancel_final
      dsimp only
      rw [if_pos ⟨hf, hl, hb, hr⟩]
      obtain ⟨v, hv⟩ := lookupA_isSome_of_containsA _ _ hr
      simp only [removeEntryA, hv]
      simp [resultEffects, containsBroadcast, Runtime.broadcast]
  refine ⟨main, fun h => ?_⟩
  obtain ⟨id, c, rfl, hf, hl, hb, hr⟩ := main.mp h
  unfold try_bob_canceled_to_bob_cancel_final
  dsimp only
  rw [if_pos ⟨hf, hl, hb, hr⟩]
  obtain ⟨v, hv⟩ := lookupA_isSome_of_containsA _ _ hr
  simp only [removeEntryA, hv]
  rfl

/-- C4 counterexample: with Cancel at 30 confirmations `safe_refund` fails
(30 + 3 < 20 is false), yet Refund is still broadcast. -/
theorem C4_bob_refund_broadcast_counterexample :
    fixRt4.temporal_safety.safe_refund 30 = false
    ∧ containsBroadcast .Refund
        (resultEffects (try_bob_canceled_to_bob_cancel_final
          (.Sync (.TransactionConfirmations 2 (some 30))) fixRt4)) = true := by
  refine ⟨by decide, by decide⟩

/-- C4 witness: the characterization applied at the concrete fixture. -/
theorem C4_bob_refund_broadcast_witness :
    resultState (try_bob_canceled_to_bob_cancel_final
        (.Sync (.TransactionConfirmations 2 (some 30))) fixRt4)
      = some (some .BobCancelFinal) := by
  exact (C4_bob_refund_broadcast (.Sync (.TransactionConfirmations 2 (some 30)))
    fixRt4).2 (by decide)

/-! ## Claim C10: the guarded unwraps cannot panic -/

/-- C10: the `remove_entry(..).unwrap()` calls in Bob's Refund-broadcast
branch and Alice's Punish-broadcast branch are unreachable as errors: the
match guards require the respective keys to be present, so neither transition
can return the panic error for any event and runtime. -/
theorem C10_unwrap_safety : ∀ (ops : WalletOps) (event : BusMsg) (rt : Runtime)
    (s : AliceCanceled),
    try_bob_canceled_to_bob_cancel_final event rt ≠ .error .panicUnwrap
    ∧ try_alice_canceled_to_alice_refund_or_alice_punish ops event rt s
        ≠ .error .panicUnwrap := by
  intro ops event rt s
  constructor
  · unfold try_bob_canceled_to_bob_cancel_final
    split
    · rename_i id c
      by_cases hg : rt.temporal_safety.final_tx c .Bitcoin = true
          ∧ lookupA rt.syncer_state.tasks.watched_txs id = some .Cancel
          ∧ rt.syncer_state.buy_tx_confs = none
          ∧ containsA rt.txs .Refund = true
      · rw [if_pos hg]
        obtain ⟨v, hv⟩ := lookupA_isSome_of_containsA _ _ hg.2.2.2
        simp only [removeEntryA, hv]
        simp
      · rw [if_neg hg]; simp
    · simp
  · unfold try_alice_canceled_to_alice_refund_or_alice_punish
    split
    · rename_i id c
      by_cases hf : rt.temporal_safety.final_tx c .Bitcoin = true
      · rw [if_pos hf]
        split
        · by_cases hc : containsA rt.syncer_state.tasks.txids .Refund = true
          · rw [if_pos hc]
            obtain ⟨v, hv⟩ := lookupA_isSome_of_containsA _ _ hc
            simp only [removeEntryA, hv]
            simp
          · rw [if_neg hc]; simp
        · by_cases hg : rt.temporal_safety.valid_punish c = true
              ∧ containsA rt.txs .Punish = true
          · rw [if_pos hg]
            obtain ⟨v, hv⟩ := lookupA_isSome_of_containsA _ _ hg.2
            simp only [removeEntryA, hv]
            repeat' split
            all_goals simp
          · rw [if_neg hg]; simp
        · simp
      · rw [if_neg hf]; simp
    · split
      · rename_i t hl
        simp only [removeEntryA, hl]
        split
        · simp
        · repeat' split
          all_goals simp
      · simp
    · simp

/-- C10 witness: the no-panic statement at a concrete Refund-broadcast
input. -/
theorem C10_unwrap_safety_witness :
    try_bob_canceled_to_bob_cancel_final
        (.Sync (.TransactionConfirmations 2 (some 30))) fixRt4
      ≠ .error .panicUnwrap :=
  (C10_unwrap_safety fixOpsBuy (.Sync (.TransactionConfirmations 2 (some 30)))
    fixRt4 ⟨42⟩).1

/-! ## Claim C2: Bob's funding-amount policy -/

/-- C2: in `BobReveal`, awaiting funding, a Funding `AddressTransaction`
completes funding (emitting `FundingCompleted(Bitcoin)` and moving to
`BobFunded`) only when the received amount equals the required funding amount
exactly; any other amount moves the swap to `BobAbortAwaitingBitcoinSweep`
and issues a sweep task for the wallet's funding-address sweep spec (source:
the funding address, destination: the user's address). -/
theorem C2_bob_funding_policy : ∀ (ops : WalletOps) (rt : Runtime) (s : BobReveal)
    (id hash amount block : Nat) (tx : BitcoinTx) (spec : SweepBtcSpec),
    lookupA rt.syncer_state.tasks.watched_addrs id = some .Funding →
    rt.syncer_state.awaiting_funding = true →
    ops.process_get_sweep_bitcoin_address s.wallet s.funding_address = some spec →
    (amount ≠ s.required_funding_amount →
      resultState (try_bob_reveal_to_bob_funded ops
          (.Sync (.AddressTransaction id hash amount block tx)) rt s)
        = some (some .BobAbortAwaitingBitcoinSweep)
      ∧ ∃ tid retry, Effect.SyncTaskBtc (.SweepAddress ⟨tid, .btc spec, retry⟩)
          ∈ resultEffects (try_bob_reveal_to_bob_funded ops
              (.Sync (.AddressTransaction id hash amount block tx)) rt s))
    ∧ (Effect.CtlFundingCompleted .Bitcoin
        ∈ resultEffects (try_bob_reveal_to_bob_funded ops
            (.Sync (.AddressTransaction id hash amount block tx)) rt s) →
        amount = s.required_funding_amount)
    ∧ (∀ w2 w3 rv setup, amount = s.required_funding_amount →
        ops.process_funding_tx s.wallet tx = some w2 →
        ops.handle_alice_reveals w2 s.alice_reveal = some (w3, rv, setup) →
        resultState (try_bob_reveal_to_bob_funded ops
            (.Sync (.AddressTransaction id hash amount block tx)) rt s)
          = some (some (.BobFunded
              ⟨s.local_params, s.funding_address, s.remote_params, w3⟩))
        ∧ Effect.CtlFundingCompleted .Bitcoin
            ∈ resultEffects (try_bob_reveal_to_bob_funded ops
                (.Sync (.AddressTransaction id hash amount block tx)) rt s)) := by
  intro ops rt s id hash amount block tx spec hl ha hsw
  refine ⟨?_, ?_, ?_⟩
  · intro hne
    unfold try_bob_reveal_to_bob_funded
    dsimp only
    rw [if_pos ⟨hl, ha⟩, if_pos hne]
    unfold handle_bob_abort_swap
    rw [hsw]
    dsimp only [SyncerState.sweep_btc, SyncerState.new_taskid]
    refine ⟨rfl, ?_⟩
    exact ⟨rt.syncer_state.tasks.counter, false, by simp [resultEffects]⟩
  · intro hmem
    by_contra hne
    unfold try_bob_reveal_to_bob_funded at hmem
    dsimp only at hmem
    rw [if_pos ⟨hl, ha⟩, if_pos hne] at hmem
    unfold handle_bob_abort_swap at hmem
    rw [hsw] at hmem
    simp [resultEffects] at hmem
  · intro w2 w3 rv setup heq h2 h3
    unfold try_bob_reveal_to_bob_funded
    dsimp only
    rw [if_pos ⟨hl, ha⟩, if_neg (by simp [heq])]
    rw [h2]
    dsimp only
    rw [h3]
    dsimp only
    constructor
    · repeat' split
      all_goals rfl
    · repeat' split
      all_goals simp [resultEffects]

/-- C2 witness: exact amount proceeds, a deviating amount aborts, at the
concrete fixture. -/
theorem C2_bob_funding_policy_witness :
    resultState (try_bob_reveal_to_bob_funded fixOpsFund
        (.Sync (.AddressTransaction 1 77 700 0 ⟨123⟩)) fixRtB fixBobR)
      = some (some (.BobFunded ⟨.Bob ⟨1, 2⟩, 44, .Alice ⟨3, 4⟩, 42⟩))
    ∧ resultState (try_bob_reveal_to_bob_funded fixOpsFund
        (.Sync (.AddressTransaction 1 77 699 0 ⟨123⟩)) fixRtB fixBobR)
      = some (some .BobAbortAwaitingBitcoinSweep) := by
  constructor
  · exact ((C2_bob_funding_policy fixOpsFund fixRtB fixBobR 1 77 700 0 ⟨123⟩ ⟨44, 999⟩
      (by decide) (by decide) (by decide)).2.2 42 42 (some 5) ⟨⟨301⟩, ⟨302⟩, ⟨303⟩⟩
      (by decide) (by decide) (by decide)).1
  · exact ((C2_bob_funding_policy fixOpsFund fixRtB fixBobR 1 77 699 0 ⟨123⟩ ⟨44, 999⟩
      (by decide) (by decide) (by decide)).1 (by decide)).1

/-! ## Claim C7: deferral of Bob's Reveal on a missing fee estimate -/

/-- C7: if Bob receives the peer Reveal while no Bitcoin fee estimate is
known, the machine stays in its phase (`BobInitMaker` here, and
`BobTakerMakerCommit` below) with the Reveal stored in the payload; a later
event arriving once a fee estimate is known re-evaluates the stored Reveal
and produces exactly the same result as the direct path, which advances to
`BobReveal`. -/
theorem C7_bob_reveal_deferral : ∀ (ops : WalletOps) (rt : Runtime)
    (s : BobInitMaker) (r : Reveal) (p : Params) (e : BusMsg) (f : Nat),
    ops.validate_reveal r s.remote_commit = some p →
    ((rt.syncer_state.btc_fee_estimate_sat_per_kvb = none →
      try_bob_init_maker_to_bob_reveal ops (.P2p (.Reveal r)) rt s
        = .ok (some (.BobInitMaker { s with reveal := some r }), rt, []))
    ∧ (rt.syncer_state.btc_fee_estimate_sat_per_kvb = some f →
      isRevealEvent e = false → e ≠ .Ctl .AbortSwap →
      try_bob_init_maker_to_bob_reveal ops e rt { s with reveal := some r }
        = try_bob_init_maker_to_bob_reveal ops (.P2p (.Reveal r)) rt
            { s with reveal := none })
    ∧ (rt.syncer_state.btc_fee_estimate_sat_per_kvb = some f →
      resultState (try_bob_init_maker_to_bob_reveal ops (.P2p (.Reveal r)) rt s)
        = some (some (.BobReveal ⟨s.local_params,
            rt.syncer_state.bitcoin_amount + 200, s.funding_address, p,
            s.wallet, r⟩))))
    ∧ (∀ (s2 : BobTakerMakerCommit) (r2 : Reveal) (p2 : Params),
      ops.validate_reveal r2 s2.remote_commit = some p2 →
      ((rt.syncer_state.btc_fee_estimate_sat_per_kvb = none →
        try_bob_taker_maker_commit_to_bob_reveal ops (.P2p (.Reveal r2)) rt s2
          = .ok (some (.BobTakerMakerCommit { s2 with reveal := some r2 }), rt, []))
      ∧ (rt.syncer_state.btc_fee_estimate_sat_per_kvb = some f →
        isRevealEvent e = false → e ≠ .Ctl .AbortSwap →
        try_bob_taker_maker_commit_to_bob_reveal ops e rt
            { s2 with reveal := some r2 }
          = try_bob_taker_maker_commit_to_bob_reveal ops (.P2p (.Reveal r2)) rt
              { s2 with reveal := none })
      ∧ (rt.syncer_state.btc_fee_estimate_sat_per_kvb = some f →
        resultState (try_bob_taker_maker_commit_to_bob_reveal ops
            (.P2p (.Reveal r2)) rt s2)
          = some (some (.BobReveal ⟨s2.local_params,
              rt.syncer_state.bitcoin_amount + 200, s2.funding_address, p2,
              s2.wallet, r2⟩))))) := by
  intro ops rt s r p e f hv
  constructor
  · refine ⟨?_, ?_, ?_⟩
    · intro hfee
      unfold try_bob_init_maker_to_bob_reveal attempt_transition_to_bob_reveal
      dsimp only
      rw [hv, hfee]
    · intro hfee hnr hna
      rcases e with pm | cm | se
      · rcases pm with c | c | r3 | st | rp | bp | _
        all_goals try (simp [isRevealEvent] at hnr)
        all_goals
          (unfold try_bob_init_maker_to_bob_reveal attempt_transition_to_bob_reveal
           dsimp only
           rw [hfee]
           dsimp only
           rw [hv])
      · rcases cm with i | i | _
        all_goals try (exact absurd rfl hna)
        all_goals
          (unfold try_bob_init_maker_to_bob_reveal attempt_transition_to_bob_reveal
           dsimp only
           rw [hfee]
           dsimp only
           rw [hv])
      · rcases se with a | a | a | a | a | a | a | a | a
        all_goals
          (unfold try_bob_init_maker_to_bob_reveal attempt_transition_to_bob_reveal
           dsimp only
           rw [hfee]
           dsimp only
           rw [hv])
    · intro hfee
      unfold try_bob_init_maker_to_bob_reveal attempt_transition_to_bob_reveal
      dsimp only
      rw [hv, hfee]
      dsimp only
      repeat' split
      all_goals rfl
  · intro s2 r2 p2 hv2
    refine ⟨?_, ?_, ?_⟩
    · intro hfee
      unfold try_bob_taker_maker_commit_to_bob_reveal attempt_transition_to_bob_reveal
      dsimp only
      rw [hv2, hfee]
    · intro hfee hnr hna
      rcases e with pm | cm | se
      · rcases pm with c | c | r3 | st | rp | bp | _
        all_goals try (simp [isRevealEvent] at hnr)
        all_goals
          (unfold try_bob_taker_maker_commit_to_bob_reveal attempt_transition_to_bob_reveal
           dsimp only
           rw [hfee]
           dsimp only
           rw [hv2])
      · rcases cm with i | i | _
        all_goals try (exact absurd rfl hna)
        all_goals
          (unfold try_bob_taker_maker_commit_to_bob_reveal attempt_transition_to_bob_reveal
           dsimp only
           rw [hfee]
           dsimp only
           rw [hv2])
      · rcases se with a | a | a | a | a | a | a | a | a
        all_goals
          (unfold try_bob_taker_maker_commit_to_bob_reveal attempt_transition_to_bob_reveal
           dsimp only
           rw [hfee]
           dsimp only
           rw [hv2])
    · intro hfee
      unfold try_bob_taker_maker_commit_to_bob_reveal attempt_transition_to_bob_reveal
      dsimp only
      rw [hv2, hfee]
      dsimp only
      repeat' split
      all_goals rfl

/-- C7 witness: defer at the concrete fixture (no fee estimate), then
re-evaluate on a height event once the fee estimate is known. -/
theorem C7_bob_reveal_deferral_witness :
    try_bob_init_maker_to_bob_reveal fixOpsVal (.P2p (.Reveal 33)) fixRtF fixBim
      = .ok (some (.BobInitMaker fixBim2), fixRtF, [])
    ∧ try_bob_init_maker_to_bob_reveal fixOpsVal (.Sync (.HeightChanged .Bitcoin 5))
        fixRtF2 fixBim2
      = try_bob_init_maker_to_bob_reveal fixOpsVal (.P2p (.Reveal 33)) fixRtF2 fixBim := by
  have h := C7_bob_reveal_deferral fixOpsVal fixRtF fixBim 33 (.Alice ⟨33, 101⟩)
    (.Sync (.HeightChanged .Bitcoin 5)) 8 (by decide)
  have h2 := C7_bob_reveal_deferral fixOpsVal fixRtF2 fixBim 33 (.Alice ⟨33, 101⟩)
    (.Sync (.HeightChanged .Bitcoin 5)) 8 (by decide)
  exact ⟨h.1.1 (by decide), h2.1.2.1 (by decide) (by decide) (by decide)⟩

/-! ## Claim C6: AbortSwap semantics -/

/-- C6 (amended): AbortSwap semantics across all states.  Alice's pre-lock
states (and both Start states) abort directly to `SwapEnd(FailureAbort)`;
Bob's pre-lock states instead move to `BobAbortAwaitingBitcoinSweep` after
issuing a Bitcoin sweep of the funding address (reaching
`SwapEnd(FailureAbort)` only on sweep completion); the states between
lock-in and the terminal phase refuse the abort with the user-visible
"Swap is already locked-in" failure, leaving the state unchanged; the
terminal-path states (cancel/refund/punish/sweeping and Alice's post-buy
state) ignore AbortSwap silently. -/
theorem C6_abort_semantics : ∀ (ops : WalletOps) (rt : Runtime),
    ((∀ r, SwapStateMachine.next ops (.StartTaker r) (.Ctl .AbortSwap) rt
        = .ok (some (.SwapEnd .FailureAbort), rt, [.ClientInfo "Aborted swap"]))
    ∧ (∀ r, SwapStateMachine.next ops (.StartMaker r) (.Ctl .AbortSwap) rt
        = .ok (some (.SwapEnd .FailureAbort), rt, [.ClientInfo "Aborted swap"]))
    ∧ (∀ s, SwapStateMachine.next ops (.AliceInitTaker s) (.Ctl .AbortSwap) rt
        = .ok (some (.SwapEnd .FailureAbort), rt, [.ClientInfo "Aborted swap"]))
    ∧ (∀ s, SwapStateMachine.next ops (.AliceInitMaker s) (.Ctl .AbortSwap) rt
        = .ok (some (.SwapEnd .FailureAbort), rt, [.ClientInfo "Aborted swap"]))
    ∧ (∀ s, SwapStateMachine.next ops (.AliceTakerMakerCommit s) (.Ctl .AbortSwap) rt
        = .ok (some (.SwapEnd .FailureAbort), rt, [.ClientInfo "Aborted swap"]))
    ∧ (∀ s, SwapStateMachine.next ops (.AliceReveal s) (.Ctl .AbortSwap) rt
        = .ok (some (.SwapEnd .FailureAbort), rt, [.ClientInfo "Aborted swap"])))
    ∧ ((∀ w a spec, ops.process_get_sweep_bitcoin_address w a = some spec →
        handle_bob_abort_swap ops rt w a
          = .ok (some .BobAbortAwaitingBitcoinSweep,
              { rt with syncer_state := (rt.syncer_state.sweep_btc spec false).2 },
              [.SyncTaskBtc (.SweepAddress
                  ⟨rt.syncer_state.tasks.counter, .btc spec, false⟩),
               .ClientInfo "Aborting swap, checking if funds can be sweeped."]))
    ∧ (∀ s, SwapStateMachine.next ops (.BobInitTaker s) (.Ctl .AbortSwap) rt
        = handle_bob_abort_swap ops rt s.wallet s.funding_address)
    ∧ (∀ s, SwapStateMachine.next ops (.BobInitMaker s) (.Ctl .AbortSwap) rt
        = handle_bob_abort_swap ops rt s.wallet s.funding_address)
    ∧ (∀ s, SwapStateMachine.next ops (.BobTakerMakerCommit s) (.Ctl .AbortSwap) rt
        = handle_bob_abort_swap ops rt s.wallet s.funding_address)
    ∧ (∀ s, SwapStateMachine.next ops (.BobReveal s) (.Ctl .AbortSwap) rt
        = handle_bob_abort_swap ops rt s.wallet s.funding_address)
    ∧ (∀ s, SwapStateMachine.next ops (.BobFunded s) (.Ctl .AbortSwap) rt
        = handle_bob_abort_swap ops rt s.wallet s.funding_address))
    ∧ ((∀ s, SwapStateMachine.next ops (.BobRefundProcedureSignatures s) (.Ctl .AbortSwap) rt
        = .ok (none, rt, [.CtlFailure "Swap is already locked-in, cannot manually abort anymore."]))
    ∧ (∀ s, SwapStateMachine.next ops (.BobAccordantLock s) (.Ctl .AbortSwap) rt
        = .ok (none, rt, [.CtlFailure "Swap is already locked-in, cannot manually abort anymore."]))
    ∧ (∀ s, SwapStateMachine.next ops (.BobAccordantLockFinal s) (.Ctl .AbortSwap) rt
        = .ok (none, rt, [.CtlFailure "Swap is already locked-in, cannot manually abort anymore."]))
    ∧ (∀ s, SwapStateMachine.next ops (.AliceCoreArbitratingSetup s) (.Ctl .AbortSwap) rt
        = .ok (none, rt, [.CtlFailure "Swap is already locked-in, cannot manually abort anymore."]))
    ∧ (∀ s, SwapStateMachine.next ops (.AliceArbitratingLockFinal s) (.Ctl .AbortSwap) rt
        = .ok (none, rt, [.CtlFailure "Swap is already locked-in, cannot manually abort anymore."]))
    ∧ (∀ s, SwapStateMachine.next ops (.AliceAccordantLock s) (.Ctl .AbortSwap) rt
        = .ok (none, rt, [.CtlFailure "Swap is already locked-in, cannot manually abort anymore."])))
    ∧ ((∀ t, SwapStateMachine.next ops (.BobBuyFinal t) (.Ctl .AbortSwap) rt = .ok (none, rt, []))
    ∧ (SwapStateMachine.next ops .BobBuySweeping (.Ctl .AbortSwap) rt = .ok (none, rt, []))
    ∧ (SwapStateMachine.next ops .BobCanceled (.Ctl .AbortSwap) rt = .ok (none, rt, []))
    ∧ (SwapStateMachine.next ops .BobCancelFinal (.Ctl .AbortSwap) rt = .ok (none, rt, []))
    ∧ (SwapStateMachine.next ops .BobAbortAwaitingBitcoinSweep (.Ctl .AbortSwap) rt = .ok (none, rt, []))
    ∧ (SwapStateMachine.next ops .AliceBuyProcedureSignature (.Ctl .AbortSwap) rt = .ok (none, rt, []))
    ∧ (∀ s, SwapStateMachine.next ops (.AliceCanceled s) (.Ctl .AbortSwap) rt = .ok (none, rt, []))
    ∧ (∀ t, SwapStateMachine.next ops (.AliceRefund t) (.Ctl .AbortSwap) rt = .ok (none, rt, []))
    ∧ (SwapStateMachine.next ops .AliceRefundSweeping (.Ctl .AbortSwap) rt = .ok (none, rt, []))
    ∧ (SwapStateMachine.next ops .AlicePunish (.Ctl .AbortSwap) rt = .ok (none, rt, []))
    ∧ (∀ o, SwapStateMachine.next ops (.SwapEnd o) (.Ctl .AbortSwap) rt
        = .ok (some (.SwapEnd o), rt, []))) := by
  intro ops rt
  refine ⟨⟨fun r => rfl, fun r => rfl, fun s => rfl, fun s => rfl, fun s => rfl,
           fun s => rfl⟩,
          ⟨?_, fun s => rfl, fun s => rfl, fun s => rfl, fun s => rfl, fun s => rfl⟩,
          ⟨fun s => rfl, fun s => rfl, fun s => rfl, fun s => rfl, fun s => rfl,
           fun s => rfl⟩,
          ⟨fun t => rfl, rfl, rfl, rfl, rfl, rfl, fun s => rfl, fun t => rfl, rfl,
           rfl, fun o => rfl⟩⟩
  intro w a spec hs
  unfold handle_bob_abort_swap
  rw [hs]
  rfl

/-- C6 counterexample: in `BobReveal` (before the point of no return),
AbortSwap does not transition directly to `SwapEnd(FailureAbort)`; the
machine moves to `BobAbortAwaitingBitcoinSweep`. -/
theorem C6_abort_semantics_counterexample :
    resultState (SwapStateMachine.next fixOpsFund (.BobReveal fixBobR)
        (.Ctl .AbortSwap) fixRtB)
      = some (some .BobAbortAwaitingBitcoinSweep)
    ∧ SwapStateMachine.BobAbortAwaitingBitcoinSweep ≠ .SwapEnd .FailureAbort := by
  refine ⟨by decide, by decide⟩

/-- C6 witness: the amended semantics at concrete inputs — Alice's pre-lock
abort ends the swap, Bob's enters the sweep path. -/
theorem C6_abort_semantics_witness :
    SwapStateMachine.next fixOpsFund (.AliceReveal ⟨.Alice ⟨1, 2⟩, .Bob ⟨3, 4⟩, 42⟩)
        (.Ctl .AbortSwap) fixRtB
      = .ok (some (.SwapEnd .FailureAbort), fixRtB, [.ClientInfo "Aborted swap"])
    ∧ SwapStateMachine.next fixOpsFund (.BobReveal fixBobR) (.Ctl .AbortSwap) fixRtB
      = handle_bob_abort_swap fixOpsFund fixRtB 42 44 := by
  have h := C6_abort_semantics fixOpsFund fixRtB
  exact ⟨h.1.2.2.2.2.2 ⟨.Alice ⟨1, 2⟩, .Bob ⟨3, 4⟩, 42⟩,
         h.2.1.2.2.2.2.1 fixBobR⟩

/-! ## Claim C1: safety windows of the Buy and Punish broadcasts

The per-transition lemmas below show that no transition other than
`try_alice_accordant_lock_to_alice_buy_procedure_signature` broadcasts Buy
and none other than `try_alice_canceled_to_alice_refund_or_alice_punish`
broadcasts Punish, and characterise the conditions guarding those two
broadcasts. -/

theorem removeEntryA_key {κ ν : Type} [DecidableEq κ] {l : List (κ × ν)}
    {k k2 : κ} {v : ν} {rest : List (κ × ν)}
    (h : removeEntryA l k = some ((k2, v), rest)) : k2 = k := by
  unfold removeEntryA at h
  split at h
  · exact absurd h (by simp)
  · injection h with h1
    have := congrArg (fun p => p.1.1) h1
    simpa using this.symm

theorem noBP_abort_swap : ∀ rt, noBuyPunish (handle_abort_swap rt) :=
  fun rt => ⟨rfl, rfl⟩

theorem noBP_abort_impossible : ∀ rt, noBuyPunish (handle_abort_impossible rt) :=
  fun rt => ⟨rfl, rfl⟩

theorem noBP_bob_abort : ∀ ops rt w a, noBuyPunish (handle_bob_abort_swap ops rt w a) := by
  intro ops rt w a
  constructor <;>
    (unfold handle_bob_abort_swap
     repeat' split
     all_goals (first
       | (simp [resultEffects, containsBroadcast]
          done)
       | (simp only [resultEffects, containsBroadcast]
          repeat' split
          all_goals simp_all [resultEffects, containsBroadcast]
          done)
       | (rename_i heq
          split at heq <;> simp_all [resultEffects, containsBroadcast])
       | (simp_all [resultEffects, containsBroadcast]
          done)))

theorem noBP_bob_interrupt : ∀ event rt,
    noBuyPunish (handle_bob_swap_interrupt_after_lock event rt) := by
  intro event rt
  constructor <;>
    (unfold handle_bob_swap_interrupt_after_lock handle_abort_impossible Runtime.broadcast
     repeat' split
     all_goals (first
       | (rename_i heq
          try (have hk := removeEntryA_key heq; subst hk)
          simp [resultEffects, containsBroadcast])
       | simp [resultEffects, containsBroadcast]))

theorem noBP_alice_interrupt : ∀ event rt w,
    noBuyPunish (handle_alice_swap_interrupt_afer_lock event rt w) := by
  intro event rt w
  constructor <;>
    (unfold handle_alice_swap_interrupt_afer_lock handle_abort_impossible Runtime.broadcast
     repeat' split
     all_goals (first
       | (rename_i heq
          try (have hk := removeEntryA_key heq; subst hk)
          simp [resultEffects, containsBroadcast])
       | simp [resultEffects, containsBroadcast]))

theorem noBP_init_taker : ∀ ops event rt r,
    noBuyPunish (attempt_transition_to_init_taker ops event rt r) := by
  intro ops event rt r
  constructor <;>
    (unfold attempt_transition_to_init_taker handle_abort_swap Runtime.watch_fee_and_height SyncerState.new_taskid
     dsimp only
     repeat' split
     all_goals (first
       | (simp [resultEffects, containsBroadcast]
          done)
       | (simp only [resultEffects, containsBroadcast]
          repeat' split
          all_goals simp_all [resultEffects, containsBroadcast]
          done)
       | (rename_i heq
          split at heq <;> simp_all [resultEffects, containsBroadcast])
       | (simp_all [resultEffects, containsBroadcast]
          done)))

theorem noBP_init_maker : ∀ ops event rt r,
    noBuyPunish (attempt_transition_to_init_maker ops event rt r) := by
  intro ops event rt r
  constructor <;>
    (unfold attempt_transition_to_init_maker handle_abort_swap Runtime.watch_fee_and_height SyncerState.new_taskid
     dsimp only
     repeat' split
     all_goals (first
       | (simp [resultEffects, containsBroadcast]
          done)
       | (simp only [resultEffects, containsBroadcast]
          repeat' split
          all_goals simp_all [resultEffects, containsBroadcast]
          done)
       | (rename_i heq
          split at heq <;> simp_all [resultEffects, containsBroadcast])
       | (simp_all [resultEffects, containsBroadcast]
          done)))

theorem noBP_bob_init_taker : ∀ ops event rt s,
    noBuyPunish (try_bob_init_taker_to_bob_taker_maker_commit ops event rt s) := by
  intro ops event rt s
  constructor <;>
    (unfold try_bob_init_taker_to_bob_taker_maker_commit handle_bob_abort_swap
     repeat' split
     all_goals (first
       | (simp [resultEffects, containsBroadcast]
          done)
       | (simp only [resultEffects, containsBroadcast]
          repeat' split
          all_goals simp_all [resultEffects, containsBroadcast]
          done)
       | (rename_i heq
          split at heq <;> simp_all [resultEffects, containsBroadcast])
       | (simp_all [resultEffects, containsBroadcast]
          done)))

theorem noBP_alice_init_taker : ∀ ops event rt s,
    noBuyPunish (try_alice_init_taker_to_alice_taker_maker_commit ops event rt s) := by
  intro ops event rt s
  constructor <;>
    (unfold try_alice_init_taker_to_alice_taker_maker_commit handle_abort_swap
     repeat' split
     all_goals (first
       | (simp [resultEffects, containsBroadcast]
          done)
       | (simp only [resultEffects, containsBroadcast]
          repeat' split
          all_goals simp_all [resultEffects, containsBroadcast]
          done)
       | (rename_i heq
          split at heq <;> simp_all [resultEffects, containsBroadcast])
       | (simp_all [resultEffects, containsBroadcast]
          done)))

theorem noBP_bob_reveal_attempt : ∀ ops event rt lc lp fa rc tr w rv,
    noBuyPunish (attempt_transition_to_bob_reveal ops event rt lc lp fa rc tr w rv) := by
  intro ops event rt lc lp fa rc tr w rv
  constructor <;>
    (unfold attempt_transition_to_bob_reveal handle_bob_abort_swap Runtime.ask_bob_to_fund
     dsimp only
     repeat' split
     all_goals (first
       | (simp [resultEffects, containsBroadcast]
          done)
       | (simp only [resultEffects, containsBroadcast]
          repeat' split
          all_goals simp_all [resultEffects, containsBroadcast]
          done)
       | (rename_i heq
          split at heq <;> simp_all [resultEffects, containsBroadcast])
       | (simp_all [resultEffects, containsBroadcast]
          done)))

theorem noBP_alice_reveal_attempt : ∀ ops event rt lp rc w,
    noBuyPunish (attempt_transition_to_alice_reveal ops event rt lp rc w) := by
  intro ops event rt lp rc w
  constructor <;>
    (unfold attempt_transition_to_alice_reveal handle_abort_swap
     repeat' split
     all_goals (first
       | (simp [resultEffects, containsBroadcast]
          done)
       | (simp only [resultEffects, containsBroadcast]
          repeat' split
          all_goals simp_all [resultEffects, containsBroadcast]
          done)
       | (rename_i heq
          split at heq <;> simp_all [resultEffects, containsBroadcast])
       | (simp_all [resultEffects, containsBroadcast]
          done)))

theorem noBP_bob_reveal_funded : ∀ ops event rt s,
    noBuyPunish (try_bob_reveal_to_bob_funded ops event rt s) := by
  intro ops event rt s
  constructor <;>
    (unfold try_bob_reveal_to_bob_funded handle_bob_abort_swap watch_tx_btc_if_new
     repeat' split
     all_goals (first
       | (simp [resultEffects, containsBroadcast]
          done)
       | (simp only [resultEffects, containsBroadcast]
          repeat' split
          all_goals simp_all [resultEffects, containsBroadcast]
          done)
       | (rename_i heq
          split at heq <;> simp_all [resultEffects, containsBroadcast])
       | (simp_all [resultEffects, containsBroadcast]
          done)))

theorem noBP_bob_funded : ∀ ops event rt s,
    noBuyPunish (try_bob_funded_to_bob_refund_procedure_signature ops event rt s) := by
  intro ops event rt s
  constructor <;>
    (unfold try_bob_funded_to_bob_refund_procedure_signature handle_bob_abort_swap
       watch_tx_btc_if_new Runtime.broadcast
     repeat' split
     all_goals (first
       | (simp [resultEffects, containsBroadcast]
          done)
       | (simp only [resultEffects, containsBroadcast]
          repeat' split
          all_goals simp_all [resultEffects, containsBroadcast]
          done)
       | (rename_i heq
          split at heq <;> simp_all [resultEffects, containsBroadcast])
       | (simp_all [resultEffects, containsBroadcast]
          done)))

theorem noBP_bob_rps : ∀ event rt s,
    noBuyPunish (try_bob_refund_procedure_signatures_to_bob_accordant_lock event rt s) := by
  intro event rt s
  constructor <;>
    (unfold try_bob_refund_procedure_signatures_to_bob_accordant_lock
     repeat' split
     all_goals (first
       | exact (noBP_bob_interrupt _ _).1
       | exact (noBP_bob_interrupt _ _).2
       | (simp [resultEffects, containsBroadcast]
          done)
       | (simp only [resultEffects, containsBroadcast]
          repeat' split
          all_goals simp_all [resultEffects, containsBroadcast]
          done)
       | (rename_i heq
          split at heq <;> simp_all [resultEffects, containsBroadcast])
       | (simp_all [resultEffects, containsBroadcast]
          done)))

theorem noBP_bob_acc_lock : ∀ event rt s,
    noBuyPunish (try_bob_accordant_lock_to_bob_accordant_lock_final event rt s) := by
  intro event rt s
  constructor <;>
    (unfold try_bob_accordant_lock_to_bob_accordant_lock_final
     repeat' split
     all_goals (first
       | exact (noBP_bob_interrupt _ _).1
       | exact (noBP_bob_interrupt _ _).2
       | (simp [resultEffects, containsBroadcast]
          done)
       | (simp only [resultEffects, containsBroadcast]
          repeat' split
          all_goals simp_all [resultEffects, containsBroadcast]
          done)
       | (simp_all [resultEffects, containsBroadcast]
          done)))

theorem noBP_bob_acc_lock_final : ∀ ops event rt s,
    noBuyPunish (try_bob_accordant_lock_final_to_bob_buy_final ops event rt s) := by
  intro ops event rt s
  constructor <;>
    (unfold try_bob_accordant_lock_final_to_bob_buy_final
     repeat' split
     all_goals (first
       | exact (noBP_bob_interrupt _ _).1
       | exact (noBP_bob_interrupt _ _).2
       | (simp [resultEffects, containsBroadcast]
          done)
       | skip)
     all_goals (simp only [resultEffects, containsBroadcast]; repeat' split)
     all_goals (try (rename_i heq2
                     repeat' (split at heq2)
                     all_goals simp at heq2
                     all_goals (obtain ⟨hst, hrt, heff⟩ := heq2
                                subst heff)))
     all_goals simp [containsBroadcast])

theorem noBP_bob_buy_final : ∀ event rt t,
    noBuyPunish (try_bob_buy_final_to_bob_buy_sweeping event rt t) := by
  intro event rt t
  constructor <;>
    (unfold try_bob_buy_final_to_bob_buy_sweeping
     repeat' split
     all_goals (first
       | (simp [resultEffects, containsBroadcast]
          done)
       | (simp only [resultEffects, containsBroadcast]
          repeat' split
          all_goals simp_all [resultEffects, containsBroadcast]
          done)
       | (rename_i heq
          split at heq <;> simp_all [resultEffects, containsBroadcast])
       | (simp_all [resultEffects, containsBroadcast]
          done)))

theorem noBP_bob_cancel_final : ∀ event rt,
    noBuyPunish (try_bob_cancel_final_to_swap_end event rt) := by
  intro event rt
  constructor <;>
    (unfold try_bob_cancel_final_to_swap_end
     repeat' split
     all_goals (first
       | (simp [resultEffects, containsBroadcast]
          done)
       | (simp only [resultEffects, containsBroadcast]
          repeat' split
          all_goals simp_all [resultEffects, containsBroadcast]
          done)
       | (rename_i heq
          split at heq <;> simp_all [resultEffects, containsBroadcast])
       | (simp_all [resultEffects, containsBroadcast]
          done)))

theorem noBP_bob_canceled : ∀ event rt,
    noBuyPunish (try_bob_canceled_to_bob_cancel_final event rt) := by
  intro event rt
  constructor <;>
    (unfold try_bob_canceled_to_bob_cancel_final Runtime.broadcast
     repeat' split
     all_goals (first
       | (rename_i heq
          try (have hk := removeEntryA_key heq; subst hk)
          simp [resultEffects, containsBroadcast]
          done)
       | (simp [resultEffects, containsBroadcast]
          done)
       | skip)
     all_goals (simp only [resultEffects, containsBroadcast]; repeat' split)
     all_goals (try (rename_i heq2
                     repeat' (split at heq2)
                     all_goals simp at heq2
                     all_goals (obtain ⟨hst, hrt, heff⟩ := heq2
                                subst heff)))
     all_goals (first
       | (simp [containsBroadcast]
          done)
       | (rename_i heq3
          have hk := removeEntryA_key heq3
          subst hk
          simp [containsBroadcast]
          done)
       | simp_all [resultEffects, containsBroadcast]))

theorem noBP_awaiting_sweep : ∀ event rt,
    noBuyPunish (try_awaiting_sweep_to_swap_end event rt) := by
  intro event rt
  constructor <;>
    (unfold try_awaiting_sweep_to_swap_end handle_abort_swap
     repeat' split
     all_goals (first
       | (rename_i heq
          try (have hk := removeEntryA_key heq; subst hk)
          simp [resultEffects, containsBroadcast]
          done)
       | (simp [resultEffects, containsBroadcast]
          done)
       | skip)
     all_goals (simp only [resultEffects, containsBroadcast]; repeat' split)
     all_goals (try (rename_i heq2
                     repeat' (split at heq2)
                     all_goals simp at heq2
                     all_goals (obtain ⟨hst, hrt, heff⟩ := heq2
                                subst heff)))
     all_goals (first
       | (simp [containsBroadcast]
          done)
       | (rename_i heq3
          have hk := removeEntryA_key heq3
          subst hk
          simp [containsBroadcast]
          done)
       | simp_all [resultEffects, containsBroadcast]))

theorem noBP_alice_reveal_cas : ∀ ops event rt s,
    noBuyPunish (try_alice_reveal_to_alice_core_arbitrating_setup ops event rt s) := by
  intro ops event rt s
  constructor <;>
    (unfold try_alice_reveal_to_alice_core_arbitrating_setup handle_abort_swap
       watch_tx_btc_if_new
     repeat' split
     all_goals (first
       | (simp [resultEffects, containsBroadcast]
          done)
       | (simp only [resultEffects, containsBroadcast]
          repeat' split
          all_goals simp_all [resultEffects, containsBroadcast]
          done)
       | (rename_i heq
          split at heq <;> simp_all [resultEffects, containsBroadcast])
       | (simp_all [resultEffects, containsBroadcast]
          done)))

theorem noBP_alice_cas_alf : ∀ event rt s,
    noBuyPunish (try_alice_core_arbitrating_setup_to_alice_arbitrating_lock_final event rt s) := by
  intro event rt s
  constructor <;>
    (unfold try_alice_core_arbitrating_setup_to_alice_arbitrating_lock_final
     repeat' split
     all_goals (first
       | exact (noBP_alice_interrupt _ _ _).1
       | exact (noBP_alice_interrupt _ _ _).2
       | (simp [resultEffects, containsBroadcast]
          done)
       | (simp only [resultEffects, containsBroadcast]
          repeat' split
          all_goals simp_all [resultEffects, containsBroadcast]
          done)
       | (simp_all [resultEffects, containsBroadcast]
          done)))

theorem noBP_alice_alf : ∀ event rt s,
    noBuyPunish (try_alice_arbitrating_lock_final_to_alice_accordant_lock event rt s) := by
  intro event rt s
  constructor <;>
    (unfold try_alice_arbitrating_lock_final_to_alice_accordant_lock
     repeat' split
     all_goals (first
       | exact (noBP_alice_interrupt _ _ _).1
       | exact (noBP_alice_interrupt _ _ _).2
       | (simp [resultEffects, containsBroadcast]
          done)
       | (simp only [resultEffects, containsBroadcast]
          repeat' split
          all_goals simp_all [resultEffects, containsBroadcast]
          done)
       | (simp_all [resultEffects, containsBroadcast]
          done)))

theorem noBP_alice_bps_end : ∀ event rt,
    noBuyPunish (try_alice_buy_procedure_signature_to_swap_end event rt) := by
  intro event rt
  constructor <;>
    (unfold try_alice_buy_procedure_signature_to_swap_end
     repeat' split
     all_goals (first
       | (simp [resultEffects, containsBroadcast]
          done)
       | (simp only [resultEffects, containsBroadcast]
          repeat' split
          all_goals simp_all [resultEffects, containsBroadcast]
          done)
       | (rename_i heq
          split at heq <;> simp_all [resultEffects, containsBroadcast])
       | (simp_all [resultEffects, containsBroadcast]
          done)))

theorem noBP_alice_refund : ∀ event rt t,
    noBuyPunish (try_alice_refund_to_alice_refund_sweeping event rt t) := by
  intro event rt t
  constructor <;>
    (unfold try_alice_refund_to_alice_refund_sweeping
     repeat' split
     all_goals (first
       | (simp [resultEffects, containsBroadcast]
          done)
       | (simp only [resultEffects, containsBroadcast]
          repeat' split
          all_goals simp_all [resultEffects, containsBroadcast]
          done)
       | (rename_i heq
          split at heq <;> simp_all [resultEffects, containsBroadcast])
       | (simp_all [resultEffects, containsBroadcast]
          done)))

theorem noBP_alice_refund_sweeping : ∀ event rt,
    noBuyPunish (try_alice_refund_sweeping_to_swap_end event rt) := by
  intro event rt
  constructor <;>
    (unfold try_alice_refund_sweeping_to_swap_end
     repeat' split
     all_goals (first
       | (simp [resultEffects, containsBroadcast]
          done)
       | (simp only [resultEffects, containsBroadcast]
          repeat' split
          all_goals simp_all [resultEffects, containsBroadcast]
          done)
       | (rename_i heq
          split at heq <;> simp_all [resultEffects, containsBroadcast])
       | (simp_all [resultEffects, containsBroadcast]
          done)))

theorem noBP_alice_punish_end : ∀ event rt,
    noBuyPunish (try_alice_punish_to_swap_end event rt) := by
  intro event rt
  constructor <;>
    (unfold try_alice_punish_to_swap_end
     repeat' split
     all_goals (first
       | (simp [resultEffects, containsBroadcast]
          done)
       | (simp only [resultEffects, containsBroadcast]
          repeat' split
          all_goals simp_all [resultEffects, containsBroadcast]
          done)
       | (rename_i heq
          split at heq <;> simp_all [resultEffects, containsBroadcast])
       | (simp_all [resultEffects, containsBroadcast]
          done)))

theorem noBP_bob_buy_sweeping : ∀ event rt,
    noBuyPunish (try_bob_buy_sweeping_to_swap_end event rt) := by
  intro event rt
  constructor <;>
    (unfold try_bob_buy_sweeping_to_swap_end
     repeat' split
     all_goals (first
       | (simp [resultEffects, containsBroadcast]
          done)
       | (simp only [resultEffects, containsBroadcast]
          repeat' split
          all_goals simp_all [resultEffects, containsBroadcast]
          done)
       | (rename_i heq
          split at heq <;> simp_all [resultEffects, containsBroadcast])
       | (simp_all [resultEffects, containsBroadcast]
          done)))

/-- Alice's AccordantLock step never broadcasts Punish, and broadcasts Buy
only when the memoized Lock confirmations do not satisfy `valid_cancel`. -/
theorem alice_accordant_buy : ∀ ops event rt s,
    containsBroadcast .Punish (resultEffects
      (try_alice_accordant_lock_to_alice_buy_procedure_signature ops event rt s)) = false
    ∧ (containsBroadcast .Buy (resultEffects
        (try_alice_accordant_lock_to_alice_buy_procedure_signature ops event rt s)) = true →
      ∀ ev c, rt.syncer_state.lock_tx_confs = some ev → ev.confirmations = some c →
        rt.temporal_safety.valid_cancel c = false) := by
  intro ops event rt s
  constructor
  · unfold try_alice_accordant_lock_to_alice_buy_procedure_signature
      watch_tx_btc_if_new Runtime.broadcast
    repeat' split
    all_goals (first
      | exact (noBP_alice_interrupt _ _ _).2
      | (simp [resultEffects, containsBroadcast]
         done)
      | skip)
    all_goals (simp only [resultEffects, containsBroadcast]; repeat' split)
    all_goals (try (rename_i heq2
                    repeat' (split at heq2)
                    all_goals simp at heq2
                    all_goals (obtain ⟨hst, hrt, heff⟩ := heq2
                               subst heff)))
    all_goals (first
      | (simp [containsBroadcast]
         done)
      | simp_all [resultEffects, containsBroadcast])
  · intro h ev c hev hc
    unfold try_alice_accordant_lock_to_alice_buy_procedure_signature at h
    split at h
    · rename_i bps
      unfold watch_tx_btc_if_new SyncerState.watch_tx_btc SyncerState.new_taskid at h
      by_cases hw : rt.syncer_state.is_watched_tx .Buy = true
      all_goals (
        first
          | rw [if_pos hw] at h
          | rw [if_neg hw] at h
        try (dsimp only at h)
        split at h
        · simp [resultEffects, containsBroadcast] at h
        · rename_i w res heq
          rw [hev] at h
          try (dsimp only at h)
          rw [hc] at h
          try (dsimp only at h)
          by_cases hv : rt.temporal_safety.valid_cancel c = true
          · rw [if_pos hv] at h
            simp [resultEffects, containsBroadcast, Runtime.broadcast] at h
          · simp at hv
            exact hv)
    · rw [(noBP_alice_interrupt event rt s.wallet).1] at h
      exact absurd h (by decide)

/-- Alice's Canceled step never broadcasts Buy, and broadcasts Punish only on
a final Cancel confirmation event reaching the punish timelock with a Punish
transaction at hand. -/
theorem alice_canceled_punish : ∀ ops event rt s,
    containsBroadcast .Buy (resultEffects
      (try_alice_canceled_to_alice_refund_or_alice_punish ops event rt s)) = false
    ∧ (containsBroadcast .Punish (resultEffects
        (try_alice_canceled_to_alice_refund_or_alice_punish ops event rt s)) = true →
      ∃ id confirmations,
        event = .Sync (.TransactionConfirmations id (some confirmations))
        ∧ rt.temporal_safety.final_tx confirmations .Bitcoin = true
        ∧ rt.temporal_safety.valid_punish confirmations = true
        ∧ lookupA rt.syncer_state.tasks.watched_txs id = some .Cancel
        ∧ containsA rt.txs .Punish = true) := by
  intro ops event rt s
  constructor
  · unfold try_alice_canceled_to_alice_refund_or_alice_punish
      watch_tx_btc_if_new Runtime.broadcast SyncerState.watch_tx_btc SyncerState.new_taskid
    repeat' split
    all_goals (first
      | (rename_i heq
         try (have hk := removeEntryA_key heq; subst hk)
         simp [resultEffects, containsBroadcast]
         done)
      | (simp [resultEffects, containsBroadcast]
         done)
      | skip)
    all_goals (simp only [resultEffects, containsBroadcast]; repeat' split)
    all_goals (try (rename_i heq2
                    repeat' (split at heq2)
                    all_goals simp at heq2
                    all_goals (obtain ⟨hst, hrt, heff⟩ := heq2
                               subst heff)))
    all_goals (first
      | (simp [containsBroadcast]
         done)
      | (rename_i heq3
         have hk := removeEntryA_key heq3
         subst hk
         simp [containsBroadcast]
         done)
      | (rename_i heq4 hw4
         have hk := removeEntryA_key heq4
         subst hk
         simp [containsBroadcast]
         done)
      | simp_all [resultEffects, containsBroadcast])
  · intro h
    unfold try_alice_canceled_to_alice_refund_or_alice_punish at h
    repeat' (split at h)
    all_goals (try (simp only [resultEffects, containsBroadcast] at h
                    repeat' (split at h)))
    all_goals (try (rename_i heqh
                    repeat' (split at heqh)
                    all_goals simp at heqh
                    all_goals (obtain ⟨hst2, hrt2, heff2⟩ := heqh
                               subst heff2)))
    all_goals (try (simp at h))
    all_goals (refine ⟨_, _, rfl, ?_, ?_, ?_, ?_⟩ <;> simp_all)

theorem noBP_bob_tmc : ∀ ops event rt (s : BobTakerMakerCommit),
    noBuyPunish (try_bob_taker_maker_commit_to_bob_reveal ops event rt s) :=
  fun ops event rt s => noBP_bob_reveal_attempt ops event rt s.local_commit
    s.local_params s.funding_address s.remote_commit .Taker s.wallet s.reveal

theorem noBP_bob_im : ∀ ops event rt (s : BobInitMaker),
    noBuyPunish (try_bob_init_maker_to_bob_reveal ops event rt s) :=
  fun ops event rt s => noBP_bob_reveal_attempt ops event rt s.local_commit
    s.local_params s.funding_address s.remote_commit .Maker s.wallet s.reveal

theorem noBP_alice_tmc : ∀ ops event rt (s : AliceTakerMakerCommit),
    noBuyPunish (try_alice_taker_maker_commit_to_alice_reveal ops event rt s) :=
  fun ops event rt s => noBP_alice_reveal_attempt ops event rt s.local_params
    s.remote_commit s.wallet

theorem noBP_alice_im : ∀ ops event rt (s : AliceInitMaker),
    noBuyPunish (try_alice_init_maker_to_alice_reveal ops event rt s) :=
  fun ops event rt s => noBP_alice_reveal_attempt ops event rt s.local_params
    s.remote_commit s.wallet

/-- Claim C1 (amended). Across every state and event of the swap state
machine: a Buy broadcast happens only from Alice's AccordantLock state and
only when the memoized Lock confirmations do not satisfy `valid_cancel`
(rather than the claimed `confs(Lock) + race_thr < cancel_timelock`); a
Punish broadcast happens only from Alice's Canceled state on a final Cancel
confirmation event with `punish_timelock <= confs(Cancel)` and a Punish
transaction available (no check that Refund was not observed). -/
theorem C1_safety_window : ∀ ops sm event rt,
    (containsBroadcast .Buy
        (resultEffects (SwapStateMachine.next ops sm event rt)) = true →
      ∃ s, sm = SwapStateMachine.AliceAccordantLock s ∧
        ∀ ev c, rt.syncer_state.lock_tx_confs = some ev →
          ev.confirmations = some c →
          rt.temporal_safety.valid_cancel c = false)
    ∧ (containsBroadcast .Punish
        (resultEffects (SwapStateMachine.next ops sm event rt)) = true →
      ∃ s id confirmations, sm = SwapStateMachine.AliceCanceled s
        ∧ event = .Sync (.TransactionConfirmations id (some confirmations))
        ∧ rt.temporal_safety.final_tx confirmations .Bitcoin = true
        ∧ rt.temporal_safety.valid_punish confirmations = true
        ∧ lookupA rt.syncer_state.tasks.watched_txs id = some .Cancel
        ∧ containsA rt.txs .Punish = true) := by
  intro ops sm event rt
  cases sm
  case StartTaker r =>
    constructor
    · intro hb
      dsimp only [SwapStateMachine.next] at hb
      rw [(noBP_init_taker ops event rt r).1] at hb
      exact absurd hb (by decide)
    · intro hb
      dsimp only [SwapStateMachine.next] at hb
      rw [(noBP_init_taker ops event rt r).2] at hb
      exact absurd hb (by decide)
  case StartMaker r =>
    constructor
    · intro hb
      dsimp only [SwapStateMachine.next] at hb
      rw [(noBP_init_maker ops event rt r).1] at hb
      exact absurd hb (by decide)
    · intro hb
      dsimp only [SwapStateMachine.next] at hb
      rw [(noBP_init_maker ops event rt r).2] at hb
      exact absurd hb (by decide)
  case BobInitTaker s =>
    constructor
    · intro hb
      dsimp only [SwapStateMachine.next] at hb
      rw [(noBP_bob_init_taker ops event rt s).1] at hb
      exact absurd hb (by decide)
    · intro hb
      dsimp only [SwapStateMachine.next] at hb
      rw [(noBP_bob_init_taker ops event rt s).2] at hb
      exact absurd hb (by decide)
  case AliceInitTaker s =>
    constructor
    · intro hb
      dsimp only [SwapStateMachine.next] at hb
      rw [(noBP_alice_init_taker ops event rt s).1] at hb
      exact absurd hb (by decide)
    · intro hb
      dsimp only [SwapStateMachine.next] at hb
      rw [(noBP_alice_init_taker ops event rt s).2] at hb
      exact absurd hb (by decide)
  case BobTakerMakerCommit s =>
    constructor
    · intro hb
      dsimp only [SwapStateMachine.next] at hb
      rw [(noBP_bob_tmc ops event rt s).1] at hb
      exact absurd hb (by decide)
    · intro hb
      dsimp only [SwapStateMachine.next] at hb
      rw [(noBP_bob_tmc ops event rt s).2] at hb
      exact absurd hb (by decide)
  case AliceTakerMakerCommit s =>
    constructor
    · intro hb
      dsimp only [SwapStateMachine.next] at hb
      rw [(noBP_alice_tmc ops event rt s).1] at hb
      exact absurd hb (by decide)
    · intro hb
      dsimp only [SwapStateMachine.next] at hb
      rw [(noBP_alice_tmc ops event rt s).2] at hb
      exact absurd hb (by decide)
  case BobInitMaker s =>
    constructor
    · intro hb
      dsimp only [SwapStateMachine.next] at hb
      rw [(noBP_bob_im ops event rt s).1] at hb
      exact absurd hb (by decide)
    · intro hb
      dsimp only [SwapStateMachine.next] at hb
      rw [(noBP_bob_im ops event rt s).2] at hb
      exact absurd hb (by decide)
  case AliceInitMaker s =>
    constructor
    · intro hb
      dsimp only [SwapStateMachine.next] at hb
      rw [(noBP_alice_im ops event rt s).1] at hb
      exact absurd hb (by decide)
    · intro hb
      dsimp only [SwapStateMachine.next] at hb
      rw [(noBP_alice_im ops event rt s).2] at hb
      exact absurd hb (by decide)
  case BobReveal s =>
    constructor
    · intro hb
      dsimp only [SwapStateMachine.next] at hb
      rw [(noBP_bob_reveal_funded ops event rt s).1] at hb
      exact absurd hb (by decide)
    · intro hb
      dsimp only [SwapStateMachine.next] at hb
      rw [(noBP_bob_reveal_funded ops event rt s).2] at hb
      exact absurd hb (by decide)
  case BobFunded s =>
    constructor
    · intro hb
      dsimp only [SwapStateMachine.next] at hb
      rw [(noBP_bob_funded ops event rt s).1] at hb
      exact absurd hb (by decide)
    · intro hb
      dsimp only [SwapStateMachine.next] at hb
      rw [(noBP_bob_funded ops event rt s).2] at hb
      exact absurd hb (by decide)
  case BobRefundProcedureSignatures s =>
    constructor
    · intro hb
      dsimp only [SwapStateMachine.next] at hb
      rw [(noBP_bob_rps event rt s).1] at hb
      exact absurd hb (by decide)
    · intro hb
      dsimp only [SwapStateMachine.next] at hb
      rw [(noBP_bob_rps event rt s).2] at hb
      exact absurd hb (by decide)
  case BobAccordantLock s =>
    constructor
    · intro hb
      dsimp only [SwapStateMachine.next] at hb
      rw [(noBP_bob_acc_lock event rt s).1] at hb
      exact absurd hb (by decide)
    · intro hb
      dsimp only [SwapStateMachine.next] at hb
      rw [(noBP_bob_acc_lock event rt s).2] at hb
      exact absurd hb (by decide)
  case BobAccordantLockFinal s =>
    constructor
    · intro hb
      dsimp only [SwapStateMachine.next] at hb
      rw [(noBP_bob_acc_lock_final ops event rt s).1] at hb
      exact absurd hb (by decide)
    · intro hb
      dsimp only [SwapStateMachine.next] at hb
      rw [(noBP_bob_acc_lock_final ops event rt s).2] at hb
      exact absurd hb (by decide)
  case BobBuyFinal t =>
    constructor
    · intro hb
      dsimp only [SwapStateMachine.next] at hb
      rw [(noBP_bob_buy_final event rt t).1] at hb
      exact absurd hb (by decide)
    · intro hb
      dsimp only [SwapStateMachine.next] at hb
      rw [(noBP_bob_buy_final event rt t).2] at hb
      exact absurd hb (by decide)
  case BobBuySweeping =>
    constructor
    · intro hb
      dsimp only [SwapStateMachine.next] at hb
      rw [(noBP_bob_buy_sweeping event rt).1] at hb
      exact absurd hb (by decide)
    · intro hb
      dsimp only [SwapStateMachine.next] at hb
      rw [(noBP_bob_buy_sweeping event rt).2] at hb
      exact absurd hb (by decide)
  case BobCanceled =>
    constructor
    · intro hb
      dsimp only [SwapStateMachine.next] at hb
      rw [(noBP_bob_canceled event rt).1] at hb
      exact absurd hb (by decide)
    · intro hb
      dsimp only [SwapStateMachine.next] at hb
      rw [(noBP_bob_canceled event rt).2] at hb
      exact absurd hb (by decide)
  case BobCancelFinal =>
    constructor
    · intro hb
      dsimp only [SwapStateMachine.next] at hb
      rw [(noBP_bob_cancel_final event rt).1] at hb
      exact absurd hb (by decide)
    · intro hb
      dsimp only [SwapStateMachine.next] at hb
      rw [(noBP_bob_cancel_final event rt).2] at hb
      exact absurd hb (by decide)
  case BobAbortAwaitingBitcoinSweep =>
    constructor
    · intro hb
      dsimp only [SwapStateMachine.next] at hb
      rw [(noBP_awaiting_sweep event rt).1] at hb
      exact absurd hb (by decide)
    · intro hb
      dsimp only [SwapStateMachine.next] at hb
      rw [(noBP_awaiting_sweep event rt).2] at hb
      exact absurd hb (by decide)
  case AliceReveal s =>
    constructor
    · intro hb
      dsimp only [SwapStateMachine.next] at hb
      rw [(noBP_alice_reveal_cas ops event rt s).1] at hb
      exact absurd hb (by decide)
    · intro hb
      dsimp only [SwapStateMachine.next] at hb
      rw [(noBP_alice_reveal_cas ops event rt s).2] at hb
      exact absurd hb (by decide)
  case AliceCoreArbitratingSetup s =>
    constructor
    · intro hb
      dsimp only [SwapStateMachine.next] at hb
      rw [(noBP_alice_cas_alf event rt s).1] at hb
      exact absurd hb (by decide)
    · intro hb
      dsimp only [SwapStateMachine.next] at hb
      rw [(noBP_alice_cas_alf event rt s).2] at hb
      exact absurd hb (by decide)
  case AliceArbitratingLockFinal s =>
    constructor
    · intro hb
      dsimp only [SwapStateMachine.next] at hb
      rw [(noBP_alice_alf event rt s).1] at hb
      exact absurd hb (by decide)
    · intro hb
      dsimp only [SwapStateMachine.next] at hb
      rw [(noBP_alice_alf event rt s).2] at hb
      exact absurd hb (by decide)
  case AliceBuyProcedureSignature =>
    constructor
    · intro hb
      dsimp only [SwapStateMachine.next] at hb
      rw [(noBP_alice_bps_end event rt).1] at hb
      exact absurd hb (by decide)
    · intro hb
      dsimp only [SwapStateMachine.next] at hb
      rw [(noBP_alice_bps_end event rt).2] at hb
      exact absurd hb (by decide)
  case AliceRefund t =>
    constructor
    · intro hb
      dsimp only [SwapStateMachine.next] at hb
      rw [(noBP_alice_refund event rt t).1] at hb
      exact absurd hb (by decide)
    · intro hb
      dsimp only [SwapStateMachine.next] at hb
      rw [(noBP_alice_refund event rt t).2] at hb
      exact absurd hb (by decide)
  case AliceRefundSweeping =>
    constructor
    · intro hb
      dsimp only [SwapStateMachine.next] at hb
      rw [(noBP_alice_refund_sweeping event rt).1] at hb
      exact absurd hb (by decide)
    · intro hb
      dsimp only [SwapStateMachine.next] at hb
      rw [(noBP_alice_refund_sweeping event rt).2] at hb
      exact absurd hb (by decide)
  case AlicePunish =>
    constructor
    · intro hb
      dsimp only [SwapStateMachine.next] at hb
      rw [(noBP_alice_punish_end event rt).1] at hb
      exact absurd hb (by decide)
    · intro hb
      dsimp only [SwapStateMachine.next] at hb
      rw [(noBP_alice_punish_end event rt).2] at hb
      exact absurd hb (by decide)
  case AliceAccordantLock s =>
    constructor
    · intro hb
      dsimp only [SwapStateMachine.next] at hb
      exact ⟨s, rfl, fun ev c hev hc =>
        (alice_accordant_buy ops event rt s).2 hb ev c hev hc⟩
    · intro hb
      dsimp only [SwapStateMachine.next] at hb
      rw [(alice_accordant_buy ops event rt s).1] at hb
      exact absurd hb (by decide)
  case AliceCanceled s =>
    constructor
    · intro hb
      dsimp only [SwapStateMachine.next] at hb
      rw [(alice_canceled_punish ops event rt s).1] at hb
      exact absurd hb (by decide)
    · intro hb
      dsimp only [SwapStateMachine.next] at hb
      obtain ⟨id, confs, hev, h1, h2, h3, h4⟩ :=
        (alice_canceled_punish ops event rt s).2 hb
      exact ⟨s, id, confs, rfl, hev, h1, h2, h3, h4⟩
  case SwapEnd o =>
    constructor
    · intro hb
      dsimp only [SwapStateMachine.next] at hb
      simp [resultEffects, containsBroadcast] at hb
    · intro hb
      dsimp only [SwapStateMachine.next] at hb
      simp [resultEffects, containsBroadcast] at hb

/-- Counterexample to C1 as stated: from `AliceAccordantLock` with memoized
Lock confirmations 9, the BuyProcedureSignature event broadcasts Buy although
`safe_buy 9` (9 + race_thr < cancel_timelock) is false. -/
theorem C1_safety_window_counterexample :
    containsBroadcast .Buy (resultEffects (SwapStateMachine.next fixOpsBuy
      (.AliceAccordantLock ⟨77⟩) (.P2p (.BuyProcedureSignature ⟨⟨500⟩⟩)) fixRt1)) = true
    ∧ fixRt1.syncer_state.lock_tx_confs = some ⟨0, some 9⟩
    ∧ fixRt1.temporal_safety.safe_buy 9 = false := by decide

/-- Witness: C1 applied at the Buy-broadcast fixture. -/
theorem C1_safety_window_witness :
    ∃ s, (SwapStateMachine.AliceAccordantLock (⟨77⟩ : AliceAccordantLock))
        = SwapStateMachine.AliceAccordantLock s ∧
      ∀ ev c, fixRt1.syncer_state.lock_tx_confs = some ev →
        ev.confirmations = some c →
        fixRt1.temporal_safety.valid_cancel c = false :=
  (C1_safety_window fixOpsBuy (.AliceAccordantLock ⟨77⟩)
    (.P2p (.BuyProcedureSignature ⟨⟨500⟩⟩)) fixRt1).1 (by decide)

/-! ## Claim C8: terminal exit -/

/-- Once the machine is in `SwapEnd`, the dispatcher leaves state, runtime and
outcome emissions untouched for every subsequent event sequence. -/
theorem runMachine_end : ∀ events ops o rt,
    runMachine ops (.SwapEnd o, rt) events = ((.SwapEnd o, rt), []) := by
  intro events
  induction events with
  | nil => intro ops o rt; rfl
  | cons e es ih =>
    intro ops o rt
    simp only [runMachine]
    have hd : dispatchStep ops (.SwapEnd o, rt) e = ((.SwapEnd o, rt), []) := rfl
    rw [hd]
    simp [ih]

/-- Outcome selector of a non-terminal state is empty. -/
theorem isEnd_match_nil (sm : SwapStateMachine) (h : sm.isEnd = false) :
    (match sm with
      | SwapStateMachine.SwapEnd o => [o]
      | _ => ([] : List Outcome)) = [] := by
  cases sm <;> first
    | rfl
    | simp [SwapStateMachine.isEnd] at h

/-- From a non-terminal state, the collected `SwapOutcome` emissions of a run
are exactly determined by the final state: `[o]` if it is `SwapEnd o`, and
none otherwise. -/
theorem run_emits : ∀ events ops sm rt, sm.isEnd = false →
    (runMachine ops (sm, rt) events).2
      = (match (runMachine ops (sm, rt) events).1.1 with
          | SwapStateMachine.SwapEnd o => [o]
          | _ => []) := by
  intro events
  induction events with
  | nil =>
    intro ops sm rt hne
    exact (isEnd_match_nil sm hne).symm
  | cons e es ih =>
    intro ops sm rt hne
    simp only [runMachine]
    rcases hnext : SwapStateMachine.next ops sm e rt with err | ⟨st2, rt2, effs⟩
    · simp only [dispatchStep, hnext, List.nil_append]
      exact ih ops sm rt hne
    · cases st2 with
      | none =>
        simp only [dispatchStep, hnext, List.nil_append]
        exact ih ops sm rt2 hne
      | some sm2 =>
        cases sm2
        all_goals (first
          | (simp only [dispatchStep, hnext, List.nil_append]
             exact ih ops _ rt2 rfl)
          | (rename_i o
             simp only [dispatchStep, hnext, hne, Bool.false_eq_true, if_false]
             rw [runMachine_end es ops o rt2]
             simp))

/-- Claim C8. Once the state machine is in `SwapEnd o`, `next` returns
`SwapEnd o` unchanged (with no effects) for every event, and a whole run
started there changes nothing and emits nothing; from a non-terminal state a
run emits `SwapOutcome(o)` exactly once when it ends in `SwapEnd o` and never
otherwise. -/
theorem C8_terminal_exit :
    (∀ ops o event rt, SwapStateMachine.next ops (.SwapEnd o) event rt
        = .ok (some (.SwapEnd o), rt, []))
    ∧ (∀ ops o rt events, runMachine ops (.SwapEnd o, rt) events
        = ((.SwapEnd o, rt), []))
    ∧ (∀ ops sm rt events (o : Outcome), sm.isEnd = false →
        (runMachine ops (sm, rt) events).1.1 = .SwapEnd o →
          (runMachine ops (sm, rt) events).2 = [o])
    ∧ (∀ ops sm rt events, sm.isEnd = false →
        (runMachine ops (sm, rt) events).1.1.isEnd = false →
          (runMachine ops (sm, rt) events).2 = []) := by
  refine ⟨fun ops o event rt => rfl,
          fun ops o rt events => runMachine_end events ops o rt,
          fun ops sm rt events o hne hfin => ?_,
          fun ops sm rt events hne hfin => ?_⟩
  · rw [run_emits events ops sm rt hne, hfin]
  · rw [run_emits events ops sm rt hne]
    exact isEnd_match_nil _ hfin

/-- Witness: a one-event run from `AliceBuyProcedureSignature` into
`SwapEnd SuccessSwap` emits exactly one outcome. -/
theorem C8_terminal_exit_witness :
    (runMachine fixOpsNone (.AliceBuyProcedureSignature, fixRtC8)
        [.Sync (.TransactionConfirmations 3 (some 5))]).2 = [.SuccessSwap] :=
  C8_terminal_exit.2.2.1 fixOpsNone .AliceBuyProcedureSignature fixRtC8
    [.Sync (.TransactionConfirmations 3 (some 5))] .SuccessSwap (by decide) (by decide)

/-! ## Claim C5: checkpoint round-trip, chunking and checksum -/

/-- Round-trip of the `Option` codec. -/
theorem decOpt_rt {α : Type} (c : Codec α) (hc : c.RoundTrip) :
    ∀ (o : Option α) (rest : List Nat), decOpt c (encOpt c o ++ rest) = .ok (o, rest) := by
  intro o rest
  cases o with
  | none => rfl
  | some a => simp [encOpt, decOpt, hc a rest]

/-- Round-trip of the sequence-decoding loop. -/
theorem decSeqLoop_rt {α : Type} (c : Codec α) (hc : c.RoundTrip) :
    ∀ (l : List α) (rest : List Nat),
      decSeqLoop c l.length ((l.map c.enc).flatten ++ rest) = .ok (l, rest) := by
  intro l
  induction l with
  | nil => intro rest; rfl
  | cons a t ih =>
    intro rest
    simp only [List.map_cons, List.flatten_cons, List.length_cons, List.append_assoc]
    unfold decSeqLoop
    rw [hc a _]
    dsimp only
    rw [ih rest]

/-- Round-trip of the `Vec` codec. -/
theorem seqCodec_rt {α : Type} (cLen : Codec Nat) (c : Codec α)
    (hLen : cLen.RoundTrip) (hc : c.RoundTrip) :
    (seqCodec cLen c).RoundTrip := by
  intro l rest
  show decSeq cLen c (encSeq cLen c l ++ rest) = _
  unfold encSeq decSeq
  rw [List.append_assoc, hLen l.length _]
  dsimp only
  exact decSeqLoop_rt c hc l rest

/-- Round-trip of the map-decoding loop on duplicate-free keys. -/
theorem decMapLoop_rt {κ ν : Type} [DecidableEq κ] (ck : Codec κ) (cv : Codec ν)
    (hk : ck.RoundTrip) (hv : cv.RoundTrip) :
    ∀ (l acc : List (κ × ν)) (rest : List Nat), ((acc ++ l).map Prod.fst).Nodup →
      decMapLoop ck cv l.length acc
        ((l.map fun kv => ck.enc kv.1 ++ cv.enc kv.2).flatten ++ rest)
        = .ok (acc ++ l, rest) := by
  intro l
  induction l with
  | nil => intro acc rest h; simp [decMapLoop]
  | cons kv t ih =>
    intro acc rest h
    obtain ⟨k, v⟩ := kv
    simp only [List.map_cons, List.flatten_cons, List.length_cons, List.append_assoc]
    unfold decMapLoop
    rw [hk k _]
    dsimp only
    rw [hv v _]
    dsimp only
    have hknot : containsA acc k = false := by
      by_cases hc2 : containsA acc k = true
      · exfalso
        rw [containsA_eq_true_iff] at hc2
        obtain ⟨p, hmem, hfst⟩ := List.mem_map.mp hc2
        simp [List.map_append, List.nodup_append] at h
        obtain ⟨k1, v1⟩ := p
        cases hfst
        exact h.2.2.1 v1 hmem
      · simpa using hc2
    simp only [hknot, Bool.false_eq_true, if_false]
    have hnd : (((acc ++ [(k, v)]) ++ t).map Prod.fst).Nodup := by
      simpa [List.append_assoc] using h
    have := ih (acc ++ [(k, v)]) rest hnd
    simpa [List.append_assoc] using this

/-- Round-trip of one map section on duplicate-free keys. -/
theorem decMap_rt {κ ν : Type} [DecidableEq κ] (cLen : Codec Nat)
    (ck : Codec κ) (cv : Codec ν)
    (hLen : cLen.RoundTrip) (hk : ck.RoundTrip) (hv : cv.RoundTrip) :
    ∀ (l : List (κ × ν)) (rest : List Nat), (l.map Prod.fst).Nodup →
      decMap cLen ck cv (encMap cLen ck cv l ++ rest) = .ok (l, rest) := by
  intro l rest h
  unfold encMap decMap
  rw [List.append_assoc, hLen l.length _]
  dsimp only
  simpa using decMapLoop_rt ck cv hk hv l [] rest (by simpa using h)

/-- Round-trip of the whole `CheckpointSwapd` codec. -/
theorem checkpoint_swapd_rt {St Ms Sid Ts Tx Txid Pr : Type} [DecidableEq Sid]
    (cLen : Codec Nat) (cSt : Codec St) (cMs : Codec Ms) (cSid : Codec Sid)
    (cTs : Codec Ts) (cLabel : Codec TxLabel) (cTx : Codec Tx)
    (cTxid : Codec Txid) (cPr : Codec Pr)
    (hLen : cLen.RoundTrip) (hSt : cSt.RoundTrip) (hMs : cMs.RoundTrip)
    (hSid : cSid.RoundTrip) (hTs : cTs.RoundTrip) (hLabel : cLabel.RoundTrip)
    (hTx : cTx.RoundTrip) (hTxid : cTxid.RoundTrip) (hPr : cPr.RoundTrip)
    (s : CheckpointSwapd St Ms Sid Ts Tx Txid Pr) (rest : List Nat)
    (htxs : (s.txs.map Prod.fst).Nodup)
    (htxids : (s.txids.map Prod.fst).Nodup)
    (hpr : (s.pending_requests.map Prod.fst).Nodup) :
    CheckpointSwapd.strict_decode cLen cSt cMs cSid cTs cLabel cTx cTxid cPr
        (CheckpointSwapd.strict_encode cLen cSt cMs cSid cTs cLabel cTx cTxid cPr s
          ++ rest)
      = .ok (s, rest) := by
  unfold CheckpointSwapd.strict_encode CheckpointSwapd.strict_decode
  rw [List.append_assoc, List.append_assoc, List.append_assoc,
    List.append_assoc, List.append_assoc, List.append_assoc]
  rw [hSt s.state _]
  dsimp only
  rw [hMs s.last_msg _]
  dsimp only
  rw [decOpt_rt cSid hSid s.enquirer _]
  dsimp only
  rw [hTs s.temporal_safety _]
  dsimp only
  rw [decMap_rt cLen cLabel cTx hLen hLabel hTx s.txs _ htxs]
  dsimp only
  rw [decMap_rt cLen cLabel cTxid hLen hLabel hTxid s.txids _ htxids]
  dsimp only
  rw [decMap_rt cLen cSid (seqCodec cLen cPr) hLen hSid
    (seqCodec_rt cLen cPr hLen hPr) s.pending_requests _ hpr]

/-- Flattening the chunks reproduces the list (fuel version). -/
theorem chunksOfAux_flatten {α : Type} (m : Nat) (hm : 0 < m) :
    ∀ (fuel : Nat) (l : List α), l.length ≤ fuel →
      (chunksOfAux m fuel l).flatten = l := by
  intro fuel
  induction fuel with
  | zero =>
    intro l hl
    have : l = [] := List.length_eq_zero.mp (Nat.le_zero.mp hl)
    subst this
    rfl
  | succ f ih =>
    intro l hl
    cases l with
    | nil => rfl
    | cons a t =>
      show (List.take m (a :: t) :: chunksOfAux m f (List.drop m (a :: t))).flatten = a :: t
      rw [List.flatten_cons, ih (List.drop m (a :: t))
        (by simp only [List.length_drop, List.length_cons] at hl ⊢; omega)]
      exact List.take_append_drop m (a :: t)

/-- Flattening the chunks reproduces the list. -/
theorem chunksOf_flatten {α : Type} (m : Nat) (hm : 0 < m) (l : List α) :
    (chunksOf m l).flatten = l :=
  chunksOfAux_flatten m hm l.length l le_rfl

/-- Insertion permutes. -/
theorem insertByIdx_perm (a : Nat × List Nat) :
    ∀ l, List.Perm (insertByIdx a l) (a :: l) := by
  intro l
  induction l with
  | nil => exact List.Perm.refl _
  | cons b t ih =>
    show List.Perm (if a.1 ≤ b.1 then a :: b :: t else b :: insertByIdx a t) (a :: b :: t)
    split
    · exact List.Perm.refl _
    · exact (List.Perm.cons b ih).trans (List.Perm.swap a b t)

/-- The reassembly sort permutes. -/
theorem sortByIdx_perm : ∀ l, List.Perm (sortByIdx l) l := by
  intro l
  induction l with
  | nil => exact List.Perm.refl _
  | cons a t ih => exact (insertByIdx_perm a (sortByIdx t)).trans (List.Perm.cons a ih)

/-- Insertion preserves sortedness by index. -/
theorem insertByIdx_sorted (a : Nat × List Nat) :
    ∀ l, l.Sorted (fun x y => x.1 ≤ y.1) →
      (insertByIdx a l).Sorted (fun x y => x.1 ≤ y.1) := by
  intro l
  induction l with
  | nil => intro _; simp [insertByIdx]
  | cons b t ih =>
    intro hs
    show (if a.1 ≤ b.1 then a :: b :: t else b :: insertByIdx a t).Sorted _
    split
    · rename_i hab
      refine List.sorted_cons.mpr ⟨?_, hs⟩
      intro c hc
      rcases List.mem_cons.mp hc with h1 | h1
      · exact h1 ▸ hab
      · exact le_trans hab ((List.sorted_cons.mp hs).1 c h1)
    · rename_i hab
      push_neg at hab
      refine List.sorted_cons.mpr ⟨?_, ih (List.sorted_cons.mp hs).2⟩
      intro c hc
      rcases List.mem_cons.mp ((insertByIdx_perm a t).subset hc) with h1 | h1
      · exact h1 ▸ le_of_lt hab
      · exact (List.sorted_cons.mp hs).1 c h1

/-- The reassembly sort sorts by index. -/
theorem sortByIdx_sorted : ∀ l, (sortByIdx l).Sorted (fun x y => x.1 ≤ y.1) := by
  intro l
  induction l with
  | nil => simp [sortByIdx]
  | cons a t ih => exact insertByIdx_sorted a (sortByIdx t) ih

/-- Two index-sorted permutations with duplicate-free indices coincide. -/
theorem sorted_nodupkeys_perm_eq :
    ∀ (l1 l2 : List (Nat × List Nat)), List.Perm l1 l2 →
      l1.Sorted (fun x y => x.1 ≤ y.1) → l2.Sorted (fun x y => x.1 ≤ y.1) →
      (l1.map Prod.fst).Nodup → l1 = l2 := by
  intro l1
  induction l1 with
  | nil =>
    intro l2 hp _ _ _
    exact (hp.symm.eq_nil).symm ▸ rfl
  | cons a t ih =>
    intro l2 hp hs1 hs2 hnd
    cases l2 with
    | nil =>
      have := hp.length_eq
      simp at this
    | cons b t2 =>
      have hab : a = b := by
        have hbmem : b ∈ a :: t := hp.symm.subset (List.mem_cons_self b t2)
        have hamem : a ∈ b :: t2 := hp.subset (List.mem_cons_self a t)
        rcases List.mem_cons.mp hbmem with h1 | h1
        · exact h1.symm
        · rcases List.mem_cons.mp hamem with h2 | h2
          · exact h2
          · have h3 := (List.sorted_cons.mp hs1).1 b h1
            have h4 := (List.sorted_cons.mp hs2).1 a h2
            have heq : a.1 = b.1 := le_antisymm h3 h4
            exfalso
            exact (List.nodup_cons.mp hnd).1
              (heq ▸ List.mem_map_of_mem Prod.fst h1)
      subst hab
      have hpt : List.Perm t t2 := hp.cons_inv
      rw [ih t2 hpt (List.sorted_cons.mp hs1).2 (List.sorted_cons.mp hs2).2
        (List.nodup_cons.mp hnd).2]

/-- Enumeration is sorted by index. -/
theorem enum_sorted (l : List (List Nat)) :
    l.enum.Sorted (fun x y => x.1 ≤ y.1) := by
  have h1 : (l.enum.map Prod.fst).Pairwise (· ≤ ·) := by
    rw [List.enum_map_fst]
    exact List.pairwise_le_range _
  rw [List.pairwise_map] at h1
  exact h1

/-- Enumeration indices are duplicate-free. -/
theorem enum_keys_nodup (l : List (List Nat)) :
    (l.enum.map Prod.fst).Nodup := by
  rw [List.enum_map_fst]
  exact List.nodup_range _

/-- Reassembling any permutation of the enumerated chunks restores the
payload. -/
theorem reassemble_chunks (h : List Nat → Nat) (m : Nat) (hm : 0 < m)
    (P : List Nat) (received : List CheckpointChunk)
    (hperm : List.Perm
      (received.map fun c => (c.msg_index, c.serialized_state_chunk))
      (chunksOf m P).enum) :
    reassemble h (h P) received = some P := by
  unfold reassemble
  have hsorted : sortByIdx
      (received.map fun c => (c.msg_index, c.serialized_state_chunk))
      = (chunksOf m P).enum := by
    apply sorted_nodupkeys_perm_eq
    · exact (sortByIdx_perm _).trans hperm
    · exact sortByIdx_sorted _
    · exact enum_sorted _
    · have hnd := enum_keys_nodup (chunksOf m P)
      have hp2 : List.Perm
          ((sortByIdx (received.map fun c =>
            (c.msg_index, c.serialized_state_chunk))).map Prod.fst)
          ((chunksOf m P).enum.map Prod.fst) :=
        ((sortByIdx_perm _).trans hperm).map Prod.fst
      exact hp2.nodup_iff.mpr hnd
  rw [hsorted]
  simp [List.enum_map_snd, chunksOf_flatten m hm P]

/-- Reassembly refuses the restore on a checksum mismatch. -/
theorem reassemble_refuse (h : List Nat → Nat) (checksum : Nat)
    (received : List CheckpointChunk)
    (hne : h ((sortByIdx (received.map fun c =>
        (c.msg_index, c.serialized_state_chunk))).map Prod.snd).flatten
      ≠ checksum) :
    reassemble h checksum received = none := by
  unfold reassemble
  rw [if_neg hne]

/-- Every produced chunk carries the payload checksum and the total count. -/
theorem checkpoint_chunks_info (h : List Nat → Nat) (m : Nat) (P : List Nat)
    (swap_id : Nat) :
    ∀ c ∈ checkpoint_chunks h m P swap_id,
      c.checksum = h P ∧ c.msgs_total = (chunksOf m P).length := by
  intro c hc
  unfold checkpoint_chunks at hc
  rcases List.mem_map.mp hc with ⟨nc, hmem, heq⟩
  subst heq
  exact ⟨rfl, by simp⟩

/-- The unary stand-in codec is lossless. -/
theorem natCodecUnary_rt : natCodecUnary.RoundTrip := by
  intro n rest
  show decNatUnary (encNatUnary n ++ rest) = .ok (n, rest)
  induction n with
  | zero => rfl
  | succ k ih =>
    show decNatUnary ((List.replicate (k + 1) 1 ++ [0]) ++ rest) = _
    rw [List.replicate_succ, List.cons_append, List.cons_append]
    show (match decNatUnary (List.replicate k 1 ++ [0] ++ rest) with
      | .ok (n, r) => Except.ok (n + 1, r)
      | .error e => .error e) = _
    have hk : decNatUnary (List.replicate k 1 ++ [0] ++ rest)
        = Except.ok (k, rest) := ih
    rw [hk]

/-- The `TxLabel` stand-in codec is lossless. -/
theorem labelCodec_rt : labelCodec.RoundTrip := by
  intro l rest
  cases l <;> rfl

/-- Claim C5. With lossless leaf codecs: decoding the `CheckpointSwapd`
encoding restores the checkpointed value exactly (on the duplicate-free key
lists the encoder is fed from the runtime's maps); concatenating any
permutation of the produced chunks after sorting by message index reproduces
the serialized payload and reassembly accepts it; every chunk carries the
checksum of the whole payload and the total chunk count; and reassembly
refuses to restore when the checksum does not match. -/
theorem C5_checkpoint_roundtrip :
    (∀ (St Ms Sid Ts Tx Txid Pr : Type) [DecidableEq Sid]
      (cLen : Codec Nat) (cSt : Codec St) (cMs : Codec Ms) (cSid : Codec Sid)
      (cTs : Codec Ts) (cLabel : Codec TxLabel) (cTx : Codec Tx)
      (cTxid : Codec Txid) (cPr : Codec Pr),
      cLen.RoundTrip → cSt.RoundTrip → cMs.RoundTrip → cSid.RoundTrip →
      cTs.RoundTrip → cLabel.RoundTrip → cTx.RoundTrip → cTxid.RoundTrip →
      cPr.RoundTrip →
      ∀ (s : CheckpointSwapd St Ms Sid Ts Tx Txid Pr) (rest : List Nat),
        (s.txs.map Prod.fst).Nodup → (s.txids.map Prod.fst).Nodup →
        (s.pending_requests.map Prod.fst).Nodup →
        CheckpointSwapd.strict_decode cLen cSt cMs cSid cTs cLabel cTx cTxid cPr
            (CheckpointSwapd.strict_encode cLen cSt cMs cSid cTs cLabel cTx
              cTxid cPr s ++ rest)
          = .ok (s, rest))
    ∧ (∀ (h : List Nat → Nat) (m : Nat) (P : List Nat)
        (received : List CheckpointChunk), 0 < m →
        List.Perm (received.map fun c => (c.msg_index, c.serialized_state_chunk))
          (chunksOf m P).enum →
        reassemble h (h P) received = some P)
    ∧ (∀ (h : List Nat → Nat) (m : Nat) (P : List Nat) (swap_id : Nat),
        ∀ c ∈ checkpoint_chunks h m P swap_id,
          c.checksum = h P ∧ c.msgs_total = (chunksOf m P).length)
    ∧ (∀ (h : List Nat → Nat) (checksum : Nat)
        (received : List CheckpointChunk),
        h ((sortByIdx (received.map fun c =>
            (c.msg_index, c.serialized_state_chunk))).map Prod.snd).flatten
          ≠ checksum →
        reassemble h checksum received = none) := by
  refine ⟨?_, ?_, ?_, ?_⟩
  · intro St Ms Sid Ts Tx Txid Pr _ cLen cSt cMs cSid cTs cLabel cTx cTxid cPr
      hLen hSt hMs hSid hTs hLabel hTx hTxid hPr s rest htxs htxids hpr
    exact checkpoint_swapd_rt cLen cSt cMs cSid cTs cLabel cTx cTxid cPr
      hLen hSt hMs hSid hTs hLabel hTx hTxid hPr s rest htxs htxids hpr
  · intro h m P received hm hperm
    exact reassemble_chunks h m hm P received hperm
  · intro h m P swap_id c hc
    exact checkpoint_chunks_info h m P swap_id c hc
  · intro h checksum received hne
    exact reassemble_refuse h checksum received hne

/-- Witness: C5 at the unary/label codecs, a concrete checkpoint, payload
`[1,2,3]` chunked at size 2 and received in reverse order, and a wrong
checksum. -/
theorem C5_checkpoint_roundtrip_witness :
    (CheckpointSwapd.strict_decode natCodecUnary natCodecUnary natCodecUnary
        natCodecUnary natCodecUnary labelCodec natCodecUnary natCodecUnary
        natCodecUnary
        (CheckpointSwapd.strict_encode natCodecUnary natCodecUnary natCodecUnary
          natCodecUnary natCodecUnary labelCodec natCodecUnary natCodecUnary
          natCodecUnary
          (⟨1, 2, some 3, 4, [(.Lock, 5)], [(.Buy, 6)], [(7, [8])]⟩ :
            CheckpointSwapd Nat Nat Nat Nat Nat Nat Nat) ++ [9])
      = .ok ((⟨1, 2, some 3, 4, [(.Lock, 5)], [(.Buy, 6)], [(7, [8])]⟩ :
            CheckpointSwapd Nat Nat Nat Nat Nat Nat Nat), [9]))
    ∧ reassemble List.length 3 [⟨1, [3]⟩, ⟨0, [1, 2]⟩] = some [1, 2, 3]
    ∧ (∀ c ∈ checkpoint_chunks List.length 2 [1, 2, 3] 99,
        c.checksum = 3 ∧ c.msgs_total = 2)
    ∧ reassemble List.length 5 [⟨0, [1, 2]⟩] = none :=
  ⟨C5_checkpoint_roundtrip.1 Nat Nat Nat Nat Nat Nat Nat
      natCodecUnary natCodecUnary natCodecUnary natCodecUnary natCodecUnary
      labelCodec natCodecUnary natCodecUnary natCodecUnary
      natCodecUnary_rt natCodecUnary_rt natCodecUnary_rt natCodecUnary_rt
      natCodecUnary_rt labelCodec_rt natCodecUnary_rt natCodecUnary_rt
      natCodecUnary_rt
      ⟨1, 2, some 3, 4, [(.Lock, 5)], [(.Buy, 6)], [(7, [8])]⟩ [9]
      (by decide) (by decide) (by decide),
   C5_checkpoint_roundtrip.2.1 List.length 2 [1, 2, 3] [⟨1, [3]⟩, ⟨0, [1, 2]⟩]
      (by decide) (by decide),
   fun c hc => C5_checkpoint_roundtrip.2.2.1 List.length 2 [1, 2, 3] 99 c hc,
   C5_checkpoint_roundtrip.2.2.2 List.length 5 [⟨0, [1, 2]⟩] (by decide)⟩

/-! ## Claim C9: duplicate keys are rejected with RepeatedValue -/

/-- The map-decoding loop rejects a stream whose keys (with the accumulator)
are not duplicate-free. -/
theorem decMapLoop_dup {κ ν : Type} [DecidableEq κ] (ck : Codec κ) (cv : Codec ν)
    (hk : ck.RoundTrip) (hv : cv.RoundTrip) :
    ∀ (l acc : List (κ × ν)) (rest : List Nat),
      (acc.map Prod.fst).Nodup → ¬ ((acc ++ l).map Prod.fst).Nodup →
      decMapLoop ck cv l.length acc
        ((l.map fun kv => ck.enc kv.1 ++ cv.enc kv.2).flatten ++ rest)
        = .error .repeatedValue := by
  intro l
  induction l with
  | nil =>
    intro acc rest hacc hdup
    exact absurd (by simpa using hacc) hdup
  | cons kv t ih =>
    intro acc rest hacc hdup
    obtain ⟨k, v⟩ := kv
    simp only [List.map_cons, List.flatten_cons, List.length_cons, List.append_assoc]
    unfold decMapLoop
    rw [hk k _]
    dsimp only
    rw [hv v _]
    dsimp only
    by_cases hck : containsA acc k = true
    · simp only [hck, if_true]
    · have hckf : containsA acc k = false := by simpa using hck
      simp only [hckf, Bool.false_eq_true, if_false]
      apply ih (acc ++ [(k, v)]) rest
      · have hkn : k ∉ acc.map Prod.fst := by
          intro hmem
          exact hck (containsA_eq_true_iff acc k |>.mpr hmem)
        simp only [List.map_append, List.nodup_append]
        refine ⟨hacc, by simp, ?_⟩
        intro x hx hx2
        simp at hx2
        subst hx2
        exact hkn hx
      · intro hnd
        exact hdup (by simpa [List.append_assoc] using hnd)

/-- One map section rejects duplicate keys with `RepeatedValue`. -/
theorem decMap_dup {κ ν : Type} [DecidableEq κ] (cLen : Codec Nat)
    (ck : Codec κ) (cv : Codec ν)
    (hLen : cLen.RoundTrip) (hk : ck.RoundTrip) (hv : cv.RoundTrip) :
    ∀ (l : List (κ × ν)) (rest : List Nat), ¬ (l.map Prod.fst).Nodup →
      decMap cLen ck cv (encMap cLen ck cv l ++ rest) = .error .repeatedValue := by
  intro l rest h
  unfold encMap decMap
  rw [List.append_assoc, hLen l.length _]
  dsimp only
  exact decMapLoop_dup ck cv hk hv l [] rest (by simp) (by simpa using h)

/-- Claim C9. Decoding a serialized `CheckpointSwapd` whose txs section
repeats a `TxLabel` fails with `RepeatedValue`; likewise for the txids
section (with a well-formed txs section) and for the pending-requests section
(with well-formed txs and txids sections): no checkpoint value is produced. -/
theorem C9_repeated_value : ∀ (St Ms Sid Ts Tx Txid Pr : Type) [DecidableEq Sid]
    (cLen : Codec Nat) (cSt : Codec St) (cMs : Codec Ms) (cSid : Codec Sid)
    (cTs : Codec Ts) (cLabel : Codec TxLabel) (cTx : Codec Tx)
    (cTxid : Codec Txid) (cPr : Codec Pr),
    cLen.RoundTrip → cSt.RoundTrip → cMs.RoundTrip → cSid.RoundTrip →
    cTs.RoundTrip → cLabel.RoundTrip → cTx.RoundTrip → cTxid.RoundTrip →
    cPr.RoundTrip →
    ∀ (state : St) (last_msg : Ms) (enq : Option Sid) (ts : Ts)
      (ltxs : List (TxLabel × Tx)) (ltxids : List (TxLabel × Txid))
      (lpr : List (Sid × List Pr)) (tail : List Nat),
    (¬ (ltxs.map Prod.fst).Nodup →
      CheckpointSwapd.strict_decode cLen cSt cMs cSid cTs cLabel cTx cTxid cPr
          (cSt.enc state ++ (cMs.enc last_msg ++ (encOpt cSid enq
            ++ (cTs.enc ts ++ (encMap cLen cLabel cTx ltxs ++ tail)))))
        = .error .repeatedValue)
    ∧ ((ltxs.map Prod.fst).Nodup → ¬ (ltxids.map Prod.fst).Nodup →
      CheckpointSwapd.strict_decode cLen cSt cMs cSid cTs cLabel cTx cTxid cPr
          (cSt.enc state ++ (cMs.enc last_msg ++ (encOpt cSid enq
            ++ (cTs.enc ts ++ (encMap cLen cLabel cTx ltxs
              ++ (encMap cLen cLabel cTxid ltxids ++ tail))))))
        = .error .repeatedValue)
    ∧ ((ltxs.map Prod.fst).Nodup → (ltxids.map Prod.fst).Nodup →
        ¬ (lpr.map Prod.fst).Nodup →
      CheckpointSwapd.strict_decode cLen cSt cMs cSid cTs cLabel cTx cTxid cPr
          (cSt.enc state ++ (cMs.enc last_msg ++ (encOpt cSid enq
            ++ (cTs.enc ts ++ (encMap cLen cLabel cTx ltxs
              ++ (encMap cLen cLabel cTxid ltxids
                ++ (encMap cLen cSid (seqCodec cLen cPr) lpr ++ tail)))))))
        = .error .repeatedValue) := by
  intro St Ms Sid Ts Tx Txid Pr _ cLen cSt cMs cSid cTs cLabel cTx cTxid cPr
    hLen hSt hMs hSid hTs hLabel hTx hTxid hPr
    state last_msg enq ts ltxs ltxids lpr tail
  refine ⟨fun hdup => ?_, fun hnd1 hdup => ?_, fun hnd1 hnd2 hdup => ?_⟩
  · unfold CheckpointSwapd.strict_decode
    rw [hSt state _]
    dsimp only
    rw [hMs last_msg _]
    dsimp only
    rw [decOpt_rt cSid hSid enq _]
    dsimp only
    rw [hTs ts _]
    dsimp only
    rw [decMap_dup cLen cLabel cTx hLen hLabel hTx ltxs tail hdup]
  · unfold CheckpointSwapd.strict_decode
    rw [hSt state _]
    dsimp only
    rw [hMs last_msg _]
    dsimp only
    rw [decOpt_rt cSid hSid enq _]
    dsimp only
    rw [hTs ts _]
    dsimp only
    rw [decMap_rt cLen cLabel cTx hLen hLabel hTx ltxs _ hnd1]
    dsimp only
    rw [decMap_dup cLen cLabel cTxid hLen hLabel hTxid ltxids tail hdup]
  · unfold CheckpointSwapd.strict_decode
    rw [hSt state _]
    dsimp only
    rw [hMs last_msg _]
    dsimp only
    rw [decOpt_rt cSid hSid enq _]
    dsimp only
    rw [hTs ts _]
    dsimp only
    rw [decMap_rt cLen cLabel cTx hLen hLabel hTx ltxs _ hnd1]
    dsimp only
    rw [decMap_rt cLen cLabel cTxid hLen hLabel hTxid ltxids _ hnd2]
    dsimp only
    rw [decMap_dup cLen cSid (seqCodec cLen cPr) hLen hSid
      (seqCodec_rt cLen cPr hLen hPr) lpr tail hdup]

/-- Witness: a stream whose txs section contains the key `Lock` twice decodes
to `RepeatedValue`. -/
theorem C9_repeated_value_witness :
    CheckpointSwapd.strict_decode natCodecUnary natCodecUnary natCodecUnary
        natCodecUnary natCodecUnary labelCodec natCodecUnary natCodecUnary
        (natCodecUnary : Codec Nat)
        (natCodecUnary.enc 1 ++ (natCodecUnary.enc 2 ++ (encOpt natCodecUnary
          (some 3) ++ (natCodecUnary.enc 4
            ++ (encMap natCodecUnary labelCodec natCodecUnary
              [(.Lock, 5), (.Lock, 6)] ++ [])))))
      = .error .repeatedValue :=
  (C9_repeated_value Nat Nat Nat Nat Nat Nat Nat
      natCodecUnary natCodecUnary natCodecUnary natCodecUnary natCodecUnary
      labelCodec natCodecUnary natCodecUnary natCodecUnary
      natCodecUnary_rt natCodecUnary_rt natCodecUnary_rt natCodecUnary_rt
      natCodecUnary_rt labelCodec_rt natCodecUnary_rt natCodecUnary_rt
      natCodecUnary_rt 1 2 (some 3) 4
      [(.Lock, 5), (.Lock, 6)] [] [] []).1 (by decide)
